import Mathlib

/-!
Movie booking: seat inventory and reservation engine.

A shallow embedding of the C++ sources

* `include/booking/domain/Seat.hpp`
* `include/booking/domain/Theater.hpp`, `src/domain/Theater.cpp`
* `include/booking/domain/Movie.hpp`, `src/domain/Movie.cpp`
* `include/booking/service/IBookingRepository.hpp`
* `src/service/InMemoryRepository.cpp`
* `src/service/BookingManager.cpp`
* `grpc/BookingServiceImpl.cpp`
* `cli/booking_cli.cpp` (the label-to-index conversion of the `book` command)

Conventions.

* `std::uint8_t`, `std::uint32_t` and `std::size_t` values are natural numbers; every
  `static_cast<std::uint8_t>` of the source is an explicit `% 256`.
* `std::bitset<N>` is a list of `N` booleans.  Its checked accessors `test(pos)` and
  `set(pos)` throw `std::out_of_range` for `pos >= N`; a throwing call is a value
  `Except.error Exn.out_of_range`.
* A member function that mutates `*this` returns its result together with the new object.
* Each member function of `Theater` runs under `std::scoped_lock lk{mtx_}` from its first
  to its last statement, so one call is one atomic step on the theater state; the mutex
  itself is not part of the state.
* `std::unordered_map` is an association list with unique keys; its iteration order
  (unspecified in C++) is the list order.  Where a new key lands in that order is not
  determined by the source, so what is said of the seeded catalog's listings (`movies`,
  `theaters`, `ListTheaters`) is said up to a permutation of the listed entries.
* A gRPC handler returns its `grpc::Status` together with the reply message it filled; an
  exception that leaves a handler is a value `Except.error`.
-/

namespace Booking

/-! ## Exceptions -/

/-- The C++ exceptions that the modelled code can raise. -/
inductive Exn where
  | out_of_range
  deriving DecidableEq

deriving instance DecidableEq for Except

/-! ## `std::bitset<N>` -/

/-- A `std::bitset<n>`: exactly `n` bits. -/
structure Bitset (n : Nat) where
  bits : List Bool
  size_eq : bits.length = n
  deriving DecidableEq

namespace Bitset

/-- The default constructor of `std::bitset<n>`: all bits zero. -/
def zero (n : Nat) : Bitset n := ⟨List.replicate n false, List.length_replicate n false⟩

/-- The call `std::bitset<n>::test(pos)`: throws `std::out_of_range` when `pos >= n`. -/
def test {n : Nat} (b : Bitset n) (pos : Nat) : Except Exn Bool :=
  if pos < n then .ok (b.bits.getD pos false) else .error .out_of_range

/-- The call `std::bitset<n>::set(pos)` (value `true`): throws `std::out_of_range` when
`pos >= n`. -/
def set {n : Nat} (b : Bitset n) (pos : Nat) : Except Exn (Bitset n) :=
  if pos < n then
    .ok ⟨b.bits.set pos true, by rw [List.length_set]; exact b.size_eq⟩
  else .error .out_of_range

end Bitset

/-! ## `Seat` (Seat.hpp) -/

/-- The `struct Seat`: `std::uint8_t index` and `std::string label`. -/
structure Seat where
  index : Nat
  label : String
  deriving DecidableEq

/-- The factory `Seat::fromIndex(std::uint8_t i)`, i.e. `{ i, "A" + std::to_string(i + 1) }`.
The argument is an 8-bit value; `i + 1` is computed in `int`, without wrap-around. -/
def Seat.fromIndex (i : Nat) : Seat := ⟨i, "A" ++ toString (i + 1)⟩

/-- The `Seat::operator==`: compares only the numeric key. -/
def Seat.eq (a o : Seat) : Bool := a.index == o.index

/-! ## `Theater` (Theater.hpp, Theater.cpp) -/

/-- The constant `Theater::kCapacity`. -/
def kCapacity : Nat := 20

/-- The `class Theater`, without its mutex. -/
structure Theater where
  id : Nat
  name : String
  occupancy : Bitset kCapacity
  deriving DecidableEq

/-- The constructor `Theater::Theater(Id id, std::string nm)`; `occupancy_` is
default-initialised. -/
def Theater.new (id : Nat) (nm : String) : Theater := ⟨id, nm, Bitset.zero kCapacity⟩

/-- The loop of `Theater::freeSeats`, `for (i = ...; i < kCapacity; ++i)`, with `remaining`
iterations still to run, loop counter `i` and accumulated vector `v`. -/
def Theater.freeSeatsLoop (occ : Bitset kCapacity) : Nat → Nat → List Seat → Except Exn (List Seat)
  | 0, _, v => .ok v
  | remaining + 1, i, v =>
    match occ.test i with
    | .error e => .error e
    | .ok b =>
      if !b then Theater.freeSeatsLoop occ remaining (i + 1) (v ++ [Seat.fromIndex (i % 256)])
      else Theater.freeSeatsLoop occ remaining (i + 1) v

/-- The member function `Theater::freeSeats() const`. -/
def Theater.freeSeats (th : Theater) : Except Exn (List Seat) :=
  Theater.freeSeatsLoop th.occupancy kCapacity 0 []

/-- Loop a) of `Theater::tryBook`: is some index out of range? -/
def Theater.anyOutOfRange : List Seat → Bool
  | [] => false
  | s :: rest => if s.index ≥ kCapacity then true else Theater.anyOutOfRange rest

/-- Loop b) of `Theater::tryBook`: is some requested seat already taken? -/
def Theater.anyTaken (occ : Bitset kCapacity) : List Seat → Except Exn Bool
  | [] => .ok false
  | s :: rest =>
    match occ.test s.index with
    | .error e => .error e
    | .ok b => if b then .ok true else Theater.anyTaken occ rest

/-- Loop c) of `Theater::tryBook`: set the bit of every requested seat. -/
def Theater.setAll (occ : Bitset kCapacity) : List Seat → Except Exn (Bitset kCapacity)
  | [] => .ok occ
  | s :: rest =>
    match occ.set s.index with
    | .error e => .error e
    | .ok occ1 => Theater.setAll occ1 rest

/-- The member function `Theater::tryBook(const std::vector<Seat>& seats)`: the returned
boolean and the theater after the call. -/
def Theater.tryBook (th : Theater) (seats : List Seat) : Except Exn (Bool × Theater) :=
  if Theater.anyOutOfRange seats then .ok (false, th)
  else
    match Theater.anyTaken th.occupancy seats with
    | .error e => .error e
    | .ok true => .ok (false, th)
    | .ok false =>
      match Theater.setAll th.occupancy seats with
      | .error e => .error e
      | .ok occ => .ok (true, { th with occupancy := occ })

/-- Whether seat `i` is occupied: the bit `occupancy_[i]`; no seat outside the bitset is. -/
def Theater.occupied (th : Theater) (i : Nat) : Bool := th.occupancy.bits.getD i false

/-! ## `Movie` (Movie.hpp, Movie.cpp) -/

/-- The `class Movie`. -/
structure Movie where
  id : Nat
  title : String
  description : String
  deriving DecidableEq

/-- The default constructor `Movie()`. -/
def Movie.default : Movie := ⟨0, "", ""⟩

/-! ## `std::unordered_map` -/

/-- The call `find(k)` of a map: the mapped value, if the key is present. -/
def mapFind {β : Type} : List (Nat × β) → Nat → Option β
  | [], _ => none
  | (k1, v) :: rest, k => if k1 = k then some v else mapFind rest k

/-- Overwrite the value stored under key `k`, if the key is present. -/
def mapStore {β : Type} : List (Nat × β) → Nat → β → List (Nat × β)
  | [], _, _ => []
  | (k1, v) :: rest, k, w => if k1 = k then (k1, w) :: rest else (k1, v) :: mapStore rest k w

/-- The call `emplace(k, v)`: inserts only if the key is absent.  The place of the new key
in the iteration order is unspecified in C++; the list puts it last, and nothing is to be
read off that choice. -/
def mapEmplace {β : Type} (m : List (Nat × β)) (k : Nat) (v : β) : List (Nat × β) :=
  match mapFind m k with
  | some _ => m
  | none => m ++ [(k, v)]

/-! ## `InMemoryRepository` (InMemoryRepository.cpp) -/

/-- The aggregate `InMemoryRepository::Entry`. -/
structure Entry where
  movie : Movie
  theaters : List (Nat × Theater)
  deriving DecidableEq

/-- A default-constructed `Entry`, as inserted by `db_[k]` for an absent key. -/
def Entry.default : Entry := ⟨Movie.default, []⟩

/-- The `class InMemoryRepository`, without its lock: the map `db_`. -/
structure InMemoryRepository where
  db : List (Nat × Entry)
  deriving DecidableEq

/-- The expression `db_[k]` followed by a modification `f` of the referenced entry;
`operator[]` inserts a default entry for an absent key.  The place of the new key in the
iteration order is unspecified in C++; the list puts it last, and nothing is to be read
off that choice. -/
def InMemoryRepository.modifyEntry (r : InMemoryRepository) (k : Nat) (f : Entry → Entry) :
    InMemoryRepository :=
  match mapFind r.db k with
  | some e => ⟨mapStore r.db k (f e)⟩
  | none => ⟨r.db ++ [(k, f Entry.default)]⟩

/-- The private member `InMemoryRepository::seed()`, run on the empty `db_`. -/
def InMemoryRepository.seed (r : InMemoryRepository) : InMemoryRepository :=
  let inter : Movie := ⟨1, "Interstellar", ""⟩
  let inception : Movie := ⟨2, "Inception", ""⟩
  let r := r.modifyEntry inter.id (fun e => { e with movie := inter })
  let r := r.modifyEntry inception.id (fun e => { e with movie := inception })
  let r := r.modifyEntry 1
    (fun e => { e with theaters := mapEmplace e.theaters 101 (Theater.new 101 "CinemaA-Hall1") })
  let r := r.modifyEntry 1
    (fun e => { e with theaters := mapEmplace e.theaters 102 (Theater.new 102 "CinemaA-Hall2") })
  let r := r.modifyEntry 2
    (fun e => { e with theaters := mapEmplace e.theaters 201 (Theater.new 201 "CinemaB-Hall1") })
  r

/-- The constructor `InMemoryRepository() { seed(); }`. -/
def InMemoryRepository.new : InMemoryRepository := InMemoryRepository.seed ⟨[]⟩

/-- The member `InMemoryRepository::freeSeats(m, t)`:
`db_.at(m).theaters.at(t)->freeSeats()`; `at` throws `std::out_of_range` for an absent
key. -/
def InMemoryRepository.freeSeats (r : InMemoryRepository) (m t : Nat) :
    Except Exn (List Seat) :=
  match mapFind r.db m with
  | none => .error .out_of_range
  | some e =>
    match mapFind e.theaters t with
    | none => .error .out_of_range
    | some th => th.freeSeats

/-- The member `InMemoryRepository::book(m, t, seats)`: the returned boolean and the
repository after the call (the theater behind the shared pointer is updated in place). -/
def InMemoryRepository.book (r : InMemoryRepository) (m t : Nat) (seats : List Seat) :
    Except Exn (Bool × InMemoryRepository) :=
  match mapFind r.db m with
  | none => .ok (false, r)
  | some e =>
    match mapFind e.theaters t with
    | none => .ok (false, r)
    | some th =>
      match th.tryBook seats with
      | .error x => .error x
      | .ok (b, th1) => .ok (b, ⟨mapStore r.db m { e with theaters := mapStore e.theaters t th1 }⟩)

/-! ## `BookingManager` (BookingManager.hpp, BookingManager.cpp) -/

/-- The `class BookingManager`: the shared pointer `repo_`, here to the in-memory
repository (the only implementation of `IBookingRepository`). -/
structure BookingManager where
  repo : InMemoryRepository
  deriving DecidableEq

/-- The member `BookingManager::freeSeats(m, t)`. -/
def BookingManager.freeSeats (mgr : BookingManager) (m t : Nat) : Except Exn (List Seat) :=
  mgr.repo.freeSeats m t

/-- The member `BookingManager::book(m, t, s)`. -/
def BookingManager.book (mgr : BookingManager) (m t : Nat) (s : List Seat) :
    Except Exn (Bool × BookingManager) :=
  match mgr.repo.book m t s with
  | .error x => .error x
  | .ok (b, r) => .ok (b, ⟨r⟩)

/-! ## Catalog queries (InMemoryRepository.cpp, BookingManager.cpp) -/

/-- The member `InMemoryRepository::theaters(m)`: the empty vector for an unknown movie,
otherwise one handle per entry of the movie's theater map. -/
def InMemoryRepository.theaters (r : InMemoryRepository) (m : Nat) : List Theater :=
  match mapFind r.db m with
  | none => []
  | some e => e.theaters.map Prod.snd

/-- The member `BookingManager::theaters(id)`. -/
def BookingManager.theaters (mgr : BookingManager) (id : Nat) : List Theater :=
  mgr.repo.theaters id

/-- The theater stored under theater id `t` of movie id `m`, if both ids are known. -/
def InMemoryRepository.theaterAt (r : InMemoryRepository) (m t : Nat) : Option Theater :=
  match mapFind r.db m with
  | none => none
  | some e => mapFind e.theaters t

/-- The keys of a `std::unordered_map` are pairwise different. -/
def InMemoryRepository.WF (r : InMemoryRepository) : Prop :=
  (r.db.map Prod.fst).Nodup ∧ ∀ p ∈ r.db, (p.2.theaters.map Prod.fst).Nodup

instance (r : InMemoryRepository) : Decidable r.WF := by
  unfold InMemoryRepository.WF
  infer_instance

/-- The structure of the catalog without the occupancy: per movie id the theater ids with
the id and name stored in each theater. -/
def InMemoryRepository.shape (r : InMemoryRepository) : List (Nat × List (Nat × Nat × String)) :=
  r.db.map (fun p => (p.1, p.2.theaters.map (fun q => (q.1, q.2.id, q.2.name))))

/-! ## The gRPC service (BookingServiceImpl.cpp) -/

/-- The values of `grpc::StatusCode` that the service returns. -/
inductive StatusCode where
  | OK
  | INVALID_ARGUMENT
  | NOT_FOUND
  | ALREADY_EXISTS
  deriving DecidableEq

/-- A `grpc::Status`: code and error message. -/
structure Status where
  code : StatusCode
  message : String
  deriving DecidableEq

/-- The constant `grpc::Status::OK`. -/
def Status.OK : Status := ⟨StatusCode.OK, ""⟩

/-- Modelled from the spec: the wire message `Seat` of `booking.proto` (the generated
header `booking.grpc.pb.h` is not among the sources), `{index, label}`; the wire index is
an unsigned integer wider than 8 bits. -/
structure WireSeat where
  index : Nat
  label : String
  deriving DecidableEq

/-- Modelled from the spec: the wire message `Theater` of `booking.proto`, `{id, name}`. -/
structure WireTheater where
  id : Nat
  name : String
  deriving DecidableEq

/-- Modelled from the spec: the wire message `BookingReq` of `booking.proto`,
`(movieId, theaterId, seats: [{index, label}])`. -/
structure BookingReq where
  movie_id : Nat
  theater_id : Nat
  seats : List WireSeat
  deriving DecidableEq

/-- Modelled from the spec: the wire message `BookingRep` of `booking.proto`,
`{success: bool}`; a fresh message has `success = false`. -/
structure BookingRep where
  success : Bool
  deriving DecidableEq

/-- The handler `BookingServiceImpl::ListTheaters`: the returned status and the message
`out`, which is empty on entry. -/
def BookingServiceImpl.ListTheaters (mgr : BookingManager) (id : Nat) :
    Status × List WireTheater :=
  let theaters := mgr.theaters id
  if theaters.isEmpty then (⟨StatusCode.NOT_FOUND, "movie id not found"⟩, [])
  else (Status.OK, theaters.map (fun t => ⟨t.id, t.name⟩))

/-- The handler `BookingServiceImpl::ListFreeSeats`: the returned status and the message
`out`, which is empty on entry.  The handler has no `try` block, so an exception of
`mgr_->freeSeats` leaves the handler. -/
def BookingServiceImpl.ListFreeSeats (mgr : BookingManager) (movie_id theater_id : Nat) :
    Except Exn (Status × List WireSeat) :=
  match mgr.freeSeats movie_id theater_id with
  | .error e => .error e
  | .ok seats =>
    if seats.isEmpty then .ok (⟨StatusCode.NOT_FOUND, "movie/theater id not found"⟩, [])
    else .ok (Status.OK, seats.map (fun s => ⟨s.index, s.label⟩))

/-- The conversion `{static_cast<std::uint8_t>(s.index()), s.label()}` of a wire seat. -/
def WireSeat.toSeat (s : WireSeat) : Seat := ⟨s.index % 256, s.label⟩

/-- The loop of `BookingServiceImpl::BookSeats` over `req->seats()`, with the hash set
`uniq` of the labels seen so far and the vector `seats` built so far; `none` when
`uniq.insert(s.label()).second` is `false`, in which case the handler returns. -/
def BookingServiceImpl.collectSeats : List WireSeat → List String → List Seat → Option (List Seat)
  | [], _, seats => some seats
  | s :: rest, uniq, seats =>
    if s.label ∈ uniq then none
    else BookingServiceImpl.collectSeats rest (s.label :: uniq)
      (seats ++ [s.toSeat])

/-- The body of `BookingServiceImpl::BookSeats` with the call `mgr_->book(...)` as the
parameter `book`: the returned status, the message `rep` (fresh on entry) and the state
behind `mgr_` after the call. -/
def BookingServiceImpl.BookSeatsVia {σ : Type}
    (book : σ → Nat → Nat → List Seat → Except Exn (Bool × σ)) (mgr : σ) (req : BookingReq) :
    Except Exn (Status × BookingRep × σ) :=
  match BookingServiceImpl.collectSeats req.seats [] [] with
  | none => .ok (⟨StatusCode.INVALID_ARGUMENT, "duplicate seat label in request"⟩, ⟨false⟩, mgr)
  | some seats =>
    if seats.isEmpty then
      .ok (⟨StatusCode.INVALID_ARGUMENT, "no seats provided"⟩, ⟨false⟩, mgr)
    else
      match book mgr req.movie_id req.theater_id seats with
      | .error e => .error e
      | .ok (ok, mgr1) =>
        if !ok then
          .ok (⟨StatusCode.ALREADY_EXISTS, "one or more seats already booked"⟩, ⟨ok⟩, mgr1)
        else .ok (Status.OK, ⟨ok⟩, mgr1)

/-- The handler `BookingServiceImpl::BookSeats`, whose `mgr_` is a `BookingManager`. -/
def BookingServiceImpl.BookSeats (mgr : BookingManager) (req : BookingReq) :
    Except Exn (Status × BookingRep × BookingManager) :=
  BookingServiceImpl.BookSeatsVia BookingManager.book mgr req

/-! ## `movies` and the abstract repository (IBookingRepository.hpp) -/

/-- The member `InMemoryRepository::movies()`: one movie per entry of `db_`. -/
def InMemoryRepository.movies (r : InMemoryRepository) : List Movie :=
  r.db.map (fun kv => kv.2.movie)

/-- The member `BookingManager::movies()`. -/
def BookingManager.movies (mgr : BookingManager) : List Movie :=
  mgr.repo.movies

/-- The interface `IBookingRepository`: its four pure-virtual member functions over the
state `σ` of an implementation that may throw exceptions of type `ε`.  The three queries
are `const`. -/
structure IBookingRepository (ε σ : Type) where
  movies : σ → Except ε (List Movie)
  theaters : σ → Nat → Except ε (List Theater)
  freeSeats : σ → Nat → Nat → Except ε (List Seat)
  book : σ → Nat → Nat → List Seat → Except ε (Bool × σ)

/-- The member `BookingManager::movies()` on an arbitrary implementation behind `repo_`:
`return repo_->movies();`. -/
def BookingManager.moviesVia {ε σ : Type} (I : IBookingRepository ε σ) (repo : σ) :
    Except ε (List Movie) :=
  I.movies repo

/-- The member `BookingManager::theaters(id)` on an arbitrary implementation:
`return repo_->theaters(id);`. -/
def BookingManager.theatersVia {ε σ : Type} (I : IBookingRepository ε σ) (repo : σ)
    (id : Nat) : Except ε (List Theater) :=
  I.theaters repo id

/-- The member `BookingManager::freeSeats(m, t)` on an arbitrary implementation:
`return repo_->freeSeats(m, t);`. -/
def BookingManager.freeSeatsVia {ε σ : Type} (I : IBookingRepository ε σ) (repo : σ)
    (m t : Nat) : Except ε (List Seat) :=
  I.freeSeats repo m t

/-- The member `BookingManager::book(m, t, s)` on an arbitrary implementation:
`return repo_->book(m, t, s);`. -/
def BookingManager.bookVia {ε σ : Type} (I : IBookingRepository ε σ) (repo : σ)
    (m t : Nat) (s : List Seat) : Except ε (Bool × σ) :=
  I.book repo m t s

/-- The class `InMemoryRepository` as an implementation of `IBookingRepository`. -/
def InMemoryRepository.impl : IBookingRepository Exn InMemoryRepository where
  movies := fun r => .ok r.movies
  theaters := fun r m => .ok (r.theaters m)
  freeSeats := fun r m t => r.freeSeats m t
  book := fun r m t s => r.book m t s

/-- The id and name of the theater under theater id `t` of movie id `m` in a catalog
structure. -/
def shapeAt (sh : List (Nat × List (Nat × Nat × String))) (m t : Nat) : Option (Nat × String) :=
  match mapFind sh m with
  | none => none
  | some L => mapFind L t

/-! ## Decimal numerals -/

/-- The decimal digit `d` as a character. -/
def decimalDigit (d : Nat) : Char := Char.ofNat (48 + d % 10)

/-- The decimal representation of a number below 1000, most significant digit first and
without leading zeros. -/
def decimal (n : Nat) : String :=
  if n < 10 then String.mk [decimalDigit n]
  else if n < 100 then String.mk [decimalDigit (n / 10), decimalDigit n]
  else String.mk [decimalDigit (n / 100), decimalDigit (n / 10), decimalDigit n]

/-! ## The command-line client (booking_cli.cpp) -/

/-- The library test `std::isdigit(c)`. -/
def isdigit (c : Char) : Bool := 48 ≤ c.toNat && c.toNat ≤ 57

/-- The library call `std::stoi(s)` on a string that starts with a digit: the number spelt
by the longest prefix of decimal digits, or `std::out_of_range` when it exceeds `INT_MAX`. -/
def stoi (cs : List Char) : Except Exn Int :=
  let v : Nat :=
    (cs.takeWhile isdigit).foldl (fun (acc : Nat) (c : Char) => 10 * acc + (c.toNat - 48)) 0
  if v ≤ 2147483647 then .ok (Int.ofNat v) else .error .out_of_range

/-- The label-to-index conversion of the `book` command: `n - 1`, where `n` is
`std::stoi(lbl.substr(1))` if `lbl.size() > 1 && std::isdigit(lbl[1])` and `0` otherwise.
The characters of a label are single bytes. -/
def cliIndex (lbl : String) : Except Exn Int :=
  match lbl.data with
  | _ :: c :: rest =>
    if isdigit c then
      match stoi (c :: rest) with
      | .error e => .error e
      | .ok n => .ok (n - 1)
    else .ok (0 - 1)
  | _ => .ok (0 - 1)

/-! ## Sequences of calls -/

/-- The calls `tryBook(reqs[0])`, `tryBook(reqs[1])`, ... applied one after another to the
same theater: the returned booleans in call order and the final theater. -/
def Theater.tryBookAll (th : Theater) : List (List Seat) → Except Exn (List Bool × Theater)
  | [] => .ok ([], th)
  | S :: rest =>
    match th.tryBook S with
    | .error e => .error e
    | .ok (b, th1) =>
      match Theater.tryBookAll th1 rest with
      | .error e => .error e
      | .ok (bs, th2) => .ok (b :: bs, th2)

/-- A call of one of the two public operations of a theater. -/
inductive Op where
  | tryBook (seats : List Seat)
  | freeSeats
  deriving DecidableEq

/-- What a call returns. -/
inductive Ret where
  | booked (b : Bool)
  | seats (v : List Seat)
  deriving DecidableEq

/-- One call on a theater: its return value and the theater after the call.
`freeSeats` is a `const` member function. -/
def Theater.step (th : Theater) : Op → Except Exn (Ret × Theater)
  | .tryBook seats =>
    match th.tryBook seats with
    | .error e => .error e
    | .ok (b, th1) => .ok (.booked b, th1)
  | .freeSeats =>
    match th.freeSeats with
    | .error e => .error e
    | .ok v => .ok (.seats v, th)

/-- The theater after a sequence of calls. -/
def Theater.run (th : Theater) : List Op → Except Exn Theater
  | [] => .ok th
  | op :: rest =>
    match th.step op with
    | .error e => .error e
    | .ok (_, th1) => Theater.run th1 rest

/-- Whether seat `i` of theater `t` of movie `m` is occupied; `false` for unknown ids. -/
def BookingManager.occupied (mgr : BookingManager) (m t i : Nat) : Bool :=
  match mapFind mgr.repo.db m with
  | none => false
  | some e =>
    match mapFind e.theaters t with
    | none => false
    | some th => th.occupied i

/-- The calls `book(m, t, S)` for the requests `(m, t, S)` of a list, applied one after
another: the manager after the last call. -/
def BookingManager.bookAll (mgr : BookingManager) :
    List (Nat × Nat × List Seat) → Except Exn BookingManager
  | [] => .ok mgr
  | (m, t, S) :: rest =>
    match mgr.book m t S with
    | .error e => .error e
    | .ok (_, mgr1) => BookingManager.bookAll mgr1 rest

/-! ## Example states -/

/-- The row `A1 .. A20`. -/
def rowA1toA20 : List Seat :=
  [⟨0, "A1"⟩, ⟨1, "A2"⟩, ⟨2, "A3"⟩, ⟨3, "A4"⟩, ⟨4, "A5"⟩, ⟨5, "A6"⟩, ⟨6, "A7"⟩,
   ⟨7, "A8"⟩, ⟨8, "A9"⟩, ⟨9, "A10"⟩, ⟨10, "A11"⟩, ⟨11, "A12"⟩, ⟨12, "A13"⟩, ⟨13, "A14"⟩,
   ⟨14, "A15"⟩, ⟨15, "A16"⟩, ⟨16, "A17"⟩, ⟨17, "A18"⟩, ⟨18, "A19"⟩, ⟨19, "A20"⟩]

/-- A hall in which exactly the seats with the given bits are taken. -/
def hallWith (bits : List Bool) (h : bits.length = kCapacity) : Theater :=
  ⟨101, "CinemaA-Hall1", ⟨bits, h⟩⟩

/-- A fresh hall. -/
def hall0 : Theater := Theater.new 101 "CinemaA-Hall1"

/-- A hall in which seats 0 and 5 are taken. -/
def hall05 : Theater :=
  hallWith [true, false, false, false, false, true, false, false, false, false,
            false, false, false, false, false, false, false, false, false, false] rfl

/-- A hall in which seat 3 is taken. -/
def hall3 : Theater :=
  hallWith [false, false, false, true, false, false, false, false, false, false,
            false, false, false, false, false, false, false, false, false, false] rfl

/-- The manager of a freshly constructed in-memory repository. -/
def mgr0 : BookingManager := ⟨InMemoryRepository.new⟩

/-- The manager `mgr0` after seat 2 of theater 101 of movie 1 was booked. -/
def mgr2 : BookingManager :=
  ⟨⟨[(1, ⟨⟨1, "Interstellar", ""⟩,
        [(101, ⟨101, "CinemaA-Hall1",
            ⟨[false, false, true, false, false, false, false, false, false, false,
              false, false, false, false, false, false, false, false, false, false], rfl⟩⟩),
         (102, Theater.new 102 "CinemaA-Hall2")]⟩),
     (2, ⟨⟨2, "Inception", ""⟩, [(201, Theater.new 201 "CinemaB-Hall1")]⟩)]⟩⟩

/-- A hall in which seat 2 is taken: theater 101 of `mgr2`. -/
def hall2 : Theater :=
  hallWith [false, false, true, false, false, false, false, false, false, false,
            false, false, false, false, false, false, false, false, false, false] rfl

/-- A hall in which every seat is taken. -/
def hallFull (id : Nat) (nm : String) : Theater :=
  ⟨id, nm, ⟨List.replicate 20 true, rfl⟩⟩

/-- A request for seats 2 and 4 of theater 101 of movie 1. -/
def reqA3A5 : BookingReq := ⟨1, 101, [⟨2, "A3"⟩, ⟨4, "A5"⟩]⟩

/-- The manager `mgr0` after every seat of theater 101 of movie 1 was booked. -/
def mgrFull : BookingManager :=
  ⟨⟨[(1, ⟨⟨1, "Interstellar", ""⟩,
        [(101, hallFull 101 "CinemaA-Hall1"), (102, Theater.new 102 "CinemaA-Hall2")]⟩),
     (2, ⟨⟨2, "Inception", ""⟩, [(201, Theater.new 201 "CinemaB-Hall1")]⟩)]⟩⟩

/-- The manager `mgr0` after seat 0 of theater 101 of movie 1 was booked. -/
def mgrSeat0 : BookingManager :=
  ⟨⟨[(1, ⟨⟨1, "Interstellar", ""⟩,
        [(101, hallWith (true :: List.replicate 19 false) rfl),
         (102, Theater.new 102 "CinemaA-Hall2")]⟩),
     (2, ⟨⟨2, "Inception", ""⟩, [(201, Theater.new 201 "CinemaB-Hall1")]⟩)]⟩⟩

/-! ## Auxiliary lemmas -/

theorem getD_set_true (l : List Bool) (p i : Nat) (hp : p < l.length) :
    (l.set p true).getD i false = (l.getD i false || decide (p = i)) := by
  simp only [List.getD_eq_getElem?_getD, List.getElem?_set]
  by_cases h : p = i
  · subst h; simp [hp]
  · simp [h]

theorem Bitset.test_of_lt {n : Nat} (b : Bitset n) {pos : Nat} (h : pos < n) :
    b.test pos = .ok (b.bits.getD pos false) := by
  simp [Bitset.test, h]

theorem Bitset.set_of_lt {n : Nat} (b : Bitset n) {pos : Nat} (h : pos < n) :
    ∃ b1, b.set pos = .ok b1 ∧ ∀ i, b1.bits.getD i false = (b.bits.getD i false || decide (pos = i)) := by
  refine ⟨⟨b.bits.set pos true, by rw [List.length_set]; exact b.size_eq⟩, ?_, ?_⟩
  · simp [Bitset.set, h]
  · intro i
    exact getD_set_true b.bits pos i (by rw [b.size_eq]; exact h)

theorem Theater.anyOutOfRange_eq_false_iff (S : List Seat) :
    Theater.anyOutOfRange S = false ↔ ∀ s ∈ S, s.index < kCapacity := by
  induction S with
  | nil => simp [Theater.anyOutOfRange]
  | cons a rest ih =>
    simp only [Theater.anyOutOfRange, List.mem_cons, forall_eq_or_imp]
    by_cases h : a.index ≥ kCapacity
    · simp [h]
    · simp [h, ih]; omega

theorem Theater.anyTaken_of_inRange (occ : Bitset kCapacity) (S : List Seat)
    (hS : ∀ s ∈ S, s.index < kCapacity) :
    Theater.anyTaken occ S = .ok (S.any (fun s => occ.bits.getD s.index false)) := by
  induction S with
  | nil => rfl
  | cons a rest ih =>
    have ha : a.index < kCapacity := hS a (List.mem_cons_self _ _)
    have hr : ∀ s ∈ rest, s.index < kCapacity := fun s hs => hS s (List.mem_cons_of_mem _ hs)
    simp only [Theater.anyTaken, Bitset.test_of_lt occ ha, List.any_cons]
    cases hb : occ.bits.getD a.index false
    · simp [ih hr]
    · simp

theorem Theater.setAll_of_inRange (S : List Seat) :
    ∀ (occ : Bitset kCapacity), (∀ s ∈ S, s.index < kCapacity) →
    ∃ occ1, Theater.setAll occ S = .ok occ1 ∧
      ∀ i, occ1.bits.getD i false = (occ.bits.getD i false || S.any (fun s => s.index == i)) := by
  induction S with
  | nil => intro occ _; exact ⟨occ, rfl, by simp⟩
  | cons a rest ih =>
    intro occ hS
    have ha : a.index < kCapacity := hS a (List.mem_cons_self _ _)
    have hr : ∀ s ∈ rest, s.index < kCapacity := fun s hs => hS s (List.mem_cons_of_mem _ hs)
    obtain ⟨b1, hb1, hb1i⟩ := Bitset.set_of_lt occ ha
    obtain ⟨occ1, h1, h1i⟩ := ih b1 hr
    refine ⟨occ1, ?_, ?_⟩
    · simp only [Theater.setAll, hb1]; exact h1
    · intro i
      rw [h1i i, hb1i i, List.any_cons, Bool.or_assoc]
      rfl


/-- When some index is out of range, or some requested seat is taken, `tryBook` returns
`false` and the same theater. -/
theorem Theater.tryBook_reject (th : Theater) (S : List Seat)
    (h : ∃ s ∈ S, kCapacity ≤ s.index ∨ th.occupied s.index = true) :
    th.tryBook S = .ok (false, th) := by
  unfold Theater.tryBook
  cases hr : Theater.anyOutOfRange S
  · have hin := (Theater.anyOutOfRange_eq_false_iff S).1 hr
    have hany : S.any (fun s => th.occupancy.bits.getD s.index false) = true := by
      obtain ⟨s, hs, hor⟩ := h
      rcases hor with hge | hocc
      · exact absurd (hin s hs) (Nat.not_lt.2 hge)
      · exact List.any_eq_true.2 ⟨s, hs, hocc⟩
    rw [Theater.anyTaken_of_inRange th.occupancy S hin, hany]
    rfl
  · rfl

/-- When all indices are in range and all requested seats are free, `tryBook` returns
`true` and sets exactly the requested bits. -/
theorem Theater.tryBook_accept (th : Theater) (S : List Seat)
    (h : ∀ s ∈ S, s.index < kCapacity ∧ th.occupied s.index = false) :
    ∃ th1, th.tryBook S = .ok (true, th1) ∧ th1.id = th.id ∧ th1.name = th.name ∧
      ∀ i, th1.occupied i = (th.occupied i || S.any (fun s => s.index == i)) := by
  have hin : ∀ s ∈ S, s.index < kCapacity := fun s hs => (h s hs).1
  have hr := (Theater.anyOutOfRange_eq_false_iff S).2 hin
  have hany : S.any (fun s => th.occupancy.bits.getD s.index false) = false := by
    cases hc : S.any (fun s => th.occupancy.bits.getD s.index false)
    · rfl
    · obtain ⟨s, hs, hocc⟩ := List.any_eq_true.1 hc
      have := (h s hs).2
      simp only [Theater.occupied] at this
      rw [this] at hocc
      exact absurd hocc (by decide)
  obtain ⟨occ1, hset, hbits⟩ := Theater.setAll_of_inRange S th.occupancy hin
  refine ⟨{ th with occupancy := occ1 }, ?_, rfl, rfl, hbits⟩
  unfold Theater.tryBook
  rw [hr, Theater.anyTaken_of_inRange th.occupancy S hin, hany, hset]
  rfl

/-- The two cases of `tryBook` are exhaustive. -/
theorem Theater.tryBook_cases (th : Theater) (S : List Seat) :
    (∀ s ∈ S, s.index < kCapacity ∧ th.occupied s.index = false) ∨
    (∃ s ∈ S, kCapacity ≤ s.index ∨ th.occupied s.index = true) := by
  by_cases h : ∀ s ∈ S, s.index < kCapacity ∧ th.occupied s.index = false
  · exact Or.inl h
  · right
    push_neg at h
    obtain ⟨s, hs, hn⟩ := h
    refine ⟨s, hs, ?_⟩
    by_cases hlt : s.index < kCapacity
    · right
      have := hn hlt
      cases hb : th.occupied s.index
      · exact absurd hb this
      · rfl
    · left; omega

/-- The loop of `freeSeats` started at counter `i` with `remaining` iterations inside the
bitset appends the free seats of `[i, i + remaining)` in ascending order. -/
theorem Theater.freeSeatsLoop_eq (occ : Bitset kCapacity) :
    ∀ (remaining i : Nat) (v : List Seat), i + remaining ≤ kCapacity →
      Theater.freeSeatsLoop occ remaining i v =
        .ok (v ++ ((List.range' i remaining).filter
          (fun j => !occ.bits.getD j false)).map Seat.fromIndex) := by
  intro remaining
  induction remaining with
  | zero => intro i v _; simp [Theater.freeSeatsLoop]
  | succ n ih =>
    intro i v hle
    have hi : i < kCapacity := by omega
    have hmod : i % 256 = i := Nat.mod_eq_of_lt (by unfold kCapacity at hi; omega)
    rw [Theater.freeSeatsLoop, Bitset.test_of_lt occ hi, List.range'_succ, hmod]
    cases hb : occ.bits.getD i false
    · simp only [Bool.not_false, if_true]
      rw [ih (i + 1) _ (by omega), List.filter_cons_of_pos (by rw [hb]; rfl)]
      simp
    · simp only [Bool.not_true, Bool.false_eq_true, if_false]
      rw [ih (i + 1) _ (by omega), List.filter_cons_of_neg (by rw [hb]; decide)]

/-- The function `freeSeats` returns the free seats of the row in ascending order. -/
theorem Theater.freeSeats_eq (th : Theater) :
    th.freeSeats =
      .ok (((List.range kCapacity).filter (fun i => !th.occupied i)).map Seat.fromIndex) := by
  unfold Theater.freeSeats
  rw [Theater.freeSeatsLoop_eq th.occupancy kCapacity 0 [] (by omega), List.range_eq_range']
  rfl

/-- Repeating a request for a taken seat changes nothing, however often. -/
theorem Theater.tryBookAll_taken (th : Theater) (s : Seat) (h : th.occupied s.index = true) :
    ∀ n, th.tryBookAll (List.replicate n [s]) = .ok (List.replicate n false, th) := by
  intro n
  induction n with
  | zero => rfl
  | succ n ih =>
    rw [List.replicate_succ, Theater.tryBookAll,
      Theater.tryBook_reject th [s] ⟨s, List.mem_singleton.2 rfl, Or.inr h⟩]
    simp only [ih]
    rfl

/-- One call never frees a seat, and takes a seat only by a `tryBook` that returns `true`
and names that seat. -/
theorem Theater.step_mono (th : Theater) (op : Op) :
    ∃ r th1, th.step op = .ok (r, th1) ∧
      (∀ i, th.occupied i = true → th1.occupied i = true) ∧
      (∀ i, th.occupied i = false → th1.occupied i = true →
        ∃ S, op = .tryBook S ∧ r = .booked true ∧ ∃ s ∈ S, s.index = i) := by
  cases op with
  | freeSeats =>
    refine ⟨.seats (((List.range kCapacity).filter (fun i => !th.occupied i)).map Seat.fromIndex),
      th, ?_, fun _ h => h, ?_⟩
    · simp only [Theater.step, Theater.freeSeats_eq th]
    · intro i h0 h1
      rw [h0] at h1
      exact absurd h1 (by decide)
  | tryBook S =>
    rcases Theater.tryBook_cases th S with hall | hsome
    · obtain ⟨th1, h1, -, -, hocc⟩ := Theater.tryBook_accept th S hall
      refine ⟨.booked true, th1, ?_, ?_, ?_⟩
      · simp only [Theater.step, h1]
      · intro i hi
        rw [hocc i, hi, Bool.true_or]
      · intro i h0 hi
        rw [hocc i, h0, Bool.false_or] at hi
        obtain ⟨s, hs, hsi⟩ := List.any_eq_true.1 hi
        exact ⟨S, rfl, rfl, s, hs, by simpa using hsi⟩
    · refine ⟨.booked false, th, ?_, fun _ h => h, ?_⟩
      · simp only [Theater.step, Theater.tryBook_reject th S hsome]
      · intro i h0 h1
        rw [h0] at h1
        exact absurd h1 (by decide)

/-- A sequence of calls never throws and never frees a seat. -/
theorem Theater.run_mono (ops : List Op) :
    ∀ th : Theater, ∃ th1, th.run ops = .ok th1 ∧
      ∀ i, th.occupied i = true → th1.occupied i = true := by
  induction ops with
  | nil => intro th; exact ⟨th, rfl, fun _ h => h⟩
  | cons op rest ih =>
    intro th
    obtain ⟨r, th1, hstep, hmono, -⟩ := Theater.step_mono th op
    obtain ⟨th2, hrun, hmono2⟩ := ih th1
    refine ⟨th2, ?_, fun i hi => hmono2 i (hmono i hi)⟩
    simp only [Theater.run, hstep, hrun]

/-- A `tryBook` that returned `true` found all requested seats in range and free, and set
exactly their bits. -/
theorem Theater.tryBook_true_inv (th th1 : Theater) (S : List Seat)
    (h : th.tryBook S = .ok (true, th1)) :
    (∀ s ∈ S, s.index < kCapacity ∧ th.occupied s.index = false) ∧
    th1.id = th.id ∧ th1.name = th.name ∧
    ∀ i, th1.occupied i = (th.occupied i || S.any (fun s => s.index == i)) := by
  rcases Theater.tryBook_cases th S with hall | hsome
  · obtain ⟨th2, h2, hid, hname, hocc⟩ := Theater.tryBook_accept th S hall
    rw [h2] at h
    have heq : th2 = th1 := by injection h with h; injection h
    subst heq
    exact ⟨hall, hid, hname, hocc⟩
  · rw [Theater.tryBook_reject th S hsome] at h
    injection h with h
    injection h with h
    exact absurd h (by decide)

/-- Looking up the key just stored. -/
theorem mapFind_mapStore_same {β : Type} (l : List (Nat × β)) (k : Nat) (w : β) :
    mapFind (mapStore l k w) k = (mapFind l k).map (fun _ => w) := by
  induction l with
  | nil => rfl
  | cons a rest ih =>
    obtain ⟨k1, v⟩ := a
    by_cases h : k1 = k
    · simp [mapStore, mapFind, h]
    · simp [mapStore, mapFind, h, ih]

/-- Looking up another key than the one stored. -/
theorem mapFind_mapStore_ne {β : Type} (l : List (Nat × β)) (k k2 : Nat) (w : β)
    (hne : k ≠ k2) : mapFind (mapStore l k w) k2 = mapFind l k2 := by
  induction l with
  | nil => rfl
  | cons a rest ih =>
    obtain ⟨k1, v⟩ := a
    by_cases h : k1 = k
    · subst h
      simp [mapStore, mapFind, hne]
    · by_cases h2 : k1 = k2
      · subst h2
        simp [mapStore, mapFind, h]
      · simp [mapStore, mapFind, h, h2, ih]

/-- Storing the value that is already there changes nothing. -/
theorem mapStore_self {β : Type} (l : List (Nat × β)) (k : Nat) (v : β)
    (hv : mapFind l k = some v) : mapStore l k v = l := by
  induction l with
  | nil => rfl
  | cons a rest ih =>
    obtain ⟨k1, v1⟩ := a
    by_cases h : k1 = k
    · simp only [mapFind, h, if_true, Option.some.injEq] at hv
      simp [mapStore, h, hv]
    · simp only [mapFind, h, if_false] at hv
      simp [mapStore, h, ih hv]

/-- With an unknown movie or theater id, `book` returns `false` and changes nothing. -/
theorem BookingManager.book_unknown (mgr : BookingManager) (m t : Nat) (S : List Seat)
    (h : ∀ e, mapFind mgr.repo.db m = some e → mapFind e.theaters t = none) :
    mgr.book m t S = .ok (false, mgr) := by
  unfold BookingManager.book InMemoryRepository.book
  cases he : mapFind mgr.repo.db m with
  | none => rfl
  | some e => simp only [h e he]

/-- With known ids, `book` is `tryBook` on the addressed theater. -/
theorem BookingManager.book_known (mgr : BookingManager) (m t : Nat) (S : List Seat)
    (e : Entry) (th : Theater) (he : mapFind mgr.repo.db m = some e)
    (ht : mapFind e.theaters t = some th) :
    ∃ b th1, th.tryBook S = .ok (b, th1) ∧
      mgr.book m t S = .ok (b,
        ⟨⟨mapStore mgr.repo.db m { e with theaters := mapStore e.theaters t th1 }⟩⟩) := by
  obtain ⟨r, th1, hstep, -⟩ := Theater.step_mono th (.tryBook S)
  cases htb : th.tryBook S with
  | error x =>
    simp only [Theater.step, htb] at hstep
    exact absurd hstep (by simp)
  | ok p =>
    obtain ⟨b, th2⟩ := p
    refine ⟨b, th2, rfl, ?_⟩
    unfold BookingManager.book InMemoryRepository.book
    simp only [he, ht, htb]

/-- The occupancy seen through the manager after a `book` with known ids. -/
theorem BookingManager.occupied_stored (mgr : BookingManager) (m t : Nat) (e : Entry)
    (th th1 : Theater) (he : mapFind mgr.repo.db m = some e)
    (ht : mapFind e.theaters t = some th) (m2 t2 i : Nat) :
    (BookingManager.mk
      ⟨mapStore mgr.repo.db m { e with theaters := mapStore e.theaters t th1 }⟩).occupied m2 t2 i
      = if m2 = m ∧ t2 = t then th1.occupied i else mgr.occupied m2 t2 i := by
  unfold BookingManager.occupied
  by_cases hm : m = m2
  · subst hm
    simp only [mapFind_mapStore_same, he, Option.map_some', true_and]
    by_cases htt : t = t2
    · subst htt
      simp only [mapFind_mapStore_same, ht, Option.map_some', if_true]
    · have htt2 : ¬ t2 = t := fun h => htt h.symm
      simp only [mapFind_mapStore_ne _ t t2 th1 htt, htt2, if_false]
  · have hm2 : ¬ m2 = m := fun h => hm h.symm
    simp only [mapFind_mapStore_ne _ m m2 _ hm, hm2, false_and, if_false]

/-- A `book` call never throws and never frees a seat of any theater. -/
theorem BookingManager.book_mono (mgr : BookingManager) (m t : Nat) (S : List Seat) :
    ∃ b mgr1, mgr.book m t S = .ok (b, mgr1) ∧
      ∀ m2 t2 i, mgr.occupied m2 t2 i = true → mgr1.occupied m2 t2 i = true := by
  cases he : mapFind mgr.repo.db m with
  | none =>
    refine ⟨false, mgr, BookingManager.book_unknown mgr m t S ?_, fun _ _ _ h => h⟩
    intro e h; rw [he] at h; exact absurd h (by simp)
  | some e =>
    cases ht : mapFind e.theaters t with
    | none =>
      refine ⟨false, mgr, BookingManager.book_unknown mgr m t S ?_, fun _ _ _ h => h⟩
      intro e2 h
      rw [he] at h
      injection h with h
      rw [← h]; exact ht
    | some th =>
      obtain ⟨b, th1, htb, hbook⟩ := BookingManager.book_known mgr m t S e th he ht
      refine ⟨b, _, hbook, ?_⟩
      intro m2 t2 i hocc
      rw [BookingManager.occupied_stored mgr m t e th th1 he ht]
      by_cases hc : m2 = m ∧ t2 = t
      · rw [if_pos hc]
        obtain ⟨rfl, rfl⟩ := hc
        have hth : th.occupied i = true := by
          simpa only [BookingManager.occupied, he, ht] using hocc
        obtain ⟨r, th2, hstep, hmono, -⟩ := Theater.step_mono th (.tryBook S)
        simp only [Theater.step, htb, Except.ok.injEq, Prod.mk.injEq] at hstep
        rw [hstep.2]
        exact hmono i hth
      · rw [if_neg hc]; exact hocc

/-- A sequence of `book` calls never throws and never frees a seat of any theater. -/
theorem BookingManager.bookAll_mono (reqs : List (Nat × Nat × List Seat)) :
    ∀ mgr : BookingManager, ∃ mgr1, mgr.bookAll reqs = .ok mgr1 ∧
      ∀ m t i, mgr.occupied m t i = true → mgr1.occupied m t i = true := by
  induction reqs with
  | nil => intro mgr; exact ⟨mgr, rfl, fun _ _ _ h => h⟩
  | cons q rest ih =>
    intro mgr
    obtain ⟨m, t, S⟩ := q
    obtain ⟨b, mgr1, hb, hmono⟩ := BookingManager.book_mono mgr m t S
    obtain ⟨mgr2, h2, hmono2⟩ := ih mgr1
    refine ⟨mgr2, ?_, fun m2 t2 i h => hmono2 m2 t2 i (hmono m2 t2 i h)⟩
    simp only [BookingManager.bookAll, hb, h2]

/-- A request naming a seat that is taken in the addressed theater is refused and changes
nothing. -/
theorem BookingManager.book_taken (mgr : BookingManager) (m t : Nat) (S : List Seat)
    (h : ∃ s ∈ S, mgr.occupied m t s.index = true) : mgr.book m t S = .ok (false, mgr) := by
  obtain ⟨s, hs, hocc⟩ := h
  cases he : mapFind mgr.repo.db m with
  | none => simp [BookingManager.occupied, he] at hocc
  | some e =>
    cases ht : mapFind e.theaters t with
    | none => simp [BookingManager.occupied, he, ht] at hocc
    | some th =>
      have hth : th.occupied s.index = true := by
        simpa only [BookingManager.occupied, he, ht] using hocc
      obtain ⟨b, th1, htb, hbook⟩ := BookingManager.book_known mgr m t S e th he ht
      rw [Theater.tryBook_reject th S ⟨s, hs, Or.inr hth⟩] at htb
      simp only [Except.ok.injEq, Prod.mk.injEq] at htb
      obtain ⟨rfl, rfl⟩ := htb
      rw [hbook, mapStore_self e.theaters t th ht]
      have hself : mapStore mgr.repo.db m { e with theaters := e.theaters } = mgr.repo.db :=
        mapStore_self mgr.repo.db m e he
      rw [hself]

/-- After a `book` that returned `true`, the requested seats of the addressed theater are
taken. -/
theorem BookingManager.book_true_occupied (mgr mgr1 : BookingManager) (m t : Nat)
    (S : List Seat) (h : mgr.book m t S = .ok (true, mgr1)) :
    ∀ s ∈ S, mgr1.occupied m t s.index = true := by
  cases he : mapFind mgr.repo.db m with
  | none =>
    rw [BookingManager.book_unknown mgr m t S (by intro e h2; rw [he] at h2; exact absurd h2 (by simp))] at h
    simp at h
  | some e =>
    cases ht : mapFind e.theaters t with
    | none =>
      rw [BookingManager.book_unknown mgr m t S
        (by intro e2 h2; rw [he] at h2; injection h2 with h2; rw [← h2]; exact ht)] at h
      simp at h
    | some th =>
      obtain ⟨b, th1, htb, hbook⟩ := BookingManager.book_known mgr m t S e th he ht
      rw [hbook] at h
      simp only [Except.ok.injEq, Prod.mk.injEq] at h
      obtain ⟨rfl, rfl⟩ := h
      intro s hs
      rw [BookingManager.occupied_stored mgr m t e th th1 he ht, if_pos ⟨rfl, rfl⟩,
        (Theater.tryBook_true_inv th th1 S htb).2.2.2 s.index]
      have hany : S.any (fun r => r.index == s.index) = true :=
        List.any_eq_true.2 ⟨s, hs, by simp⟩
      rw [hany, Bool.or_true]

/-- A key that is found is the key of an entry of the list. -/
theorem mapFind_some_mem {β : Type} (l : List (Nat × β)) (k : Nat) (v : β)
    (h : mapFind l k = some v) : (k, v) ∈ l := by
  induction l with
  | nil => simp [mapFind] at h
  | cons a rest ih =>
    obtain ⟨k1, v1⟩ := a
    by_cases hk : k1 = k
    · simp only [mapFind, hk, if_true, Option.some.injEq] at h
      rw [hk, h]
      exact List.mem_cons_self _ _
    · simp only [mapFind, hk, if_false] at h
      exact List.mem_cons_of_mem _ (ih h)

/-- The keys that are found are the keys of the list. -/
theorem mapFind_isSome_iff {β : Type} (l : List (Nat × β)) (k : Nat) :
    (mapFind l k).isSome = true ↔ k ∈ l.map Prod.fst := by
  induction l with
  | nil => simp [mapFind]
  | cons a rest ih =>
    obtain ⟨k1, v1⟩ := a
    by_cases hk : k1 = k
    · simp [mapFind, hk]
    · have hk2 : ¬ k = k1 := fun h => hk h.symm
      simp only [mapFind, hk, if_false, ih, List.map_cons, List.mem_cons, hk2, false_or]

/-- Looking up in a list whose values were mapped. -/
theorem mapFind_map {β γ : Type} (g : β → γ) (l : List (Nat × β)) (k : Nat) :
    mapFind (l.map (fun p => (p.1, g p.2))) k = (mapFind l k).map g := by
  induction l with
  | nil => rfl
  | cons a rest ih =>
    obtain ⟨k1, v1⟩ := a
    by_cases hk : k1 = k
    · simp [mapFind, hk]
    · simp [mapFind, hk, ih]

/-- Storing a value that a function does not tell from the old one keeps the image of the
list under that function. -/
theorem mapStore_map_eq {β γ : Type} (f : Nat × β → γ) (l : List (Nat × β)) (k : Nat)
    (v w : β) (hv : mapFind l k = some v) (hf : f (k, w) = f (k, v)) :
    (mapStore l k w).map f = l.map f := by
  induction l with
  | nil => rfl
  | cons a rest ih =>
    obtain ⟨k1, v1⟩ := a
    by_cases hk : k1 = k
    · simp only [mapFind, hk, if_true, Option.some.injEq] at hv
      simp only [mapStore, hk, if_true, List.map_cons, hf, hv]
    · simp only [mapFind, hk, if_false] at hv
      simp only [mapStore, hk, if_false, List.map_cons, ih hv]

/-- With unique keys, the values in list order are the values found under the keys in
list order. -/
theorem mapFind_forall₂ {β : Type} (l : List (Nat × β)) (hnd : (l.map Prod.fst).Nodup) :
    List.Forall₂ (fun k v => mapFind l k = some v) (l.map Prod.fst) (l.map Prod.snd) := by
  have aux : ∀ l : List (Nat × β), (l.map Prod.fst).Nodup →
      List.Forall₂ (fun k v => k ∈ l.map Prod.fst ∧ mapFind l k = some v)
        (l.map Prod.fst) (l.map Prod.snd) := by
    intro l
    induction l with
    | nil => intro _; exact List.Forall₂.nil
    | cons a rest ih =>
      intro hnd
      obtain ⟨k1, v1⟩ := a
      rw [List.map_cons, List.nodup_cons] at hnd
      refine List.Forall₂.cons ⟨List.mem_cons_self _ _, by simp [mapFind]⟩ ?_
      refine List.Forall₂.imp ?_ (ih hnd.2)
      rintro k v ⟨hk, hfind⟩
      refine ⟨List.mem_cons_of_mem _ hk, ?_⟩
      have hne : ¬ k1 = k := by
        rintro rfl
        exact hnd.1 hk
      simp only [mapFind, hne, if_false]
      exact hfind
  exact List.Forall₂.imp (fun _ _ h => h.2) (aux l hnd)

/-- The theater addressed after a `book` with known ids stored its result. -/
theorem InMemoryRepository.theaterAt_stored (r : InMemoryRepository) (m t : Nat) (e : Entry)
    (th th1 : Theater) (he : mapFind r.db m = some e) (ht : mapFind e.theaters t = some th)
    (m2 t2 : Nat) :
    (InMemoryRepository.mk
      (mapStore r.db m { e with theaters := mapStore e.theaters t th1 })).theaterAt m2 t2
      = if m2 = m ∧ t2 = t then some th1 else r.theaterAt m2 t2 := by
  unfold InMemoryRepository.theaterAt
  by_cases hm : m = m2
  · subst hm
    simp only [mapFind_mapStore_same, he, Option.map_some', true_and]
    by_cases htt : t = t2
    · subst htt
      simp only [mapFind_mapStore_same, ht, Option.map_some', if_true]
    · have htt2 : ¬ t2 = t := fun h => htt h.symm
      simp only [mapFind_mapStore_ne _ t t2 th1 htt, htt2, if_false]
  · have hm2 : ¬ m2 = m := fun h => hm h.symm
    simp only [mapFind_mapStore_ne _ m m2 _ hm, hm2, false_and, if_false]

/-- The occupancy seen through the manager is that of the addressed theater. -/
theorem BookingManager.occupied_eq (mgr : BookingManager) (m t i : Nat) :
    mgr.occupied m t i = match mgr.repo.theaterAt m t with
      | some th => th.occupied i
      | none => false := by
  unfold BookingManager.occupied InMemoryRepository.theaterAt
  cases mapFind mgr.repo.db m with
  | none => rfl
  | some e =>
    show (match mapFind e.theaters t with
      | none => false
      | some th => th.occupied i) = (match mapFind e.theaters t with
      | some th => th.occupied i
      | none => false)
    cases mapFind e.theaters t <;> rfl

/-- A request that the addressed theater, if there is one, refuses: `book` returns `false`
and changes nothing. -/
theorem BookingManager.book_reject (mgr : BookingManager) (m t : Nat) (S : List Seat)
    (h : ∀ th, mgr.repo.theaterAt m t = some th →
      ∃ s ∈ S, kCapacity ≤ s.index ∨ th.occupied s.index = true) :
    mgr.book m t S = .ok (false, mgr) := by
  cases he : mapFind mgr.repo.db m with
  | none =>
    exact BookingManager.book_unknown mgr m t S
      (by intro e h2; rw [he] at h2; exact absurd h2 (by simp))
  | some e =>
    cases ht : mapFind e.theaters t with
    | none =>
      exact BookingManager.book_unknown mgr m t S
        (by intro e2 h2; rw [he] at h2; injection h2 with h2; rw [← h2]; exact ht)
    | some th =>
      have hat : mgr.repo.theaterAt m t = some th := by
        simp only [InMemoryRepository.theaterAt, he, ht]
      obtain ⟨b, th1, htb, hbook⟩ := BookingManager.book_known mgr m t S e th he ht
      rw [Theater.tryBook_reject th S (h th hat)] at htb
      simp only [Except.ok.injEq, Prod.mk.injEq] at htb
      obtain ⟨rfl, rfl⟩ := htb
      rw [hbook, mapStore_self e.theaters t th ht]
      have hself : mapStore mgr.repo.db m { e with theaters := e.theaters } = mgr.repo.db :=
        mapStore_self mgr.repo.db m e he
      rw [hself]

/-- A request whose seats are all in range and free in the addressed theater: `book`
returns `true`, stores the result of `tryBook` and touches no other theater. -/
theorem BookingManager.book_accept (mgr : BookingManager) (m t : Nat) (S : List Seat)
    (th : Theater) (hat : mgr.repo.theaterAt m t = some th)
    (h : ∀ s ∈ S, s.index < kCapacity ∧ th.occupied s.index = false) :
    ∃ mgr1 th1, mgr.book m t S = .ok (true, mgr1) ∧ th.tryBook S = .ok (true, th1) ∧
      mgr1.repo.theaterAt m t = some th1 ∧
      (∀ m2 t2, (m2 ≠ m ∨ t2 ≠ t) → mgr1.repo.theaterAt m2 t2 = mgr.repo.theaterAt m2 t2) ∧
      ∀ i, th1.occupied i = (th.occupied i || S.any (fun s => s.index == i)) := by
  cases he : mapFind mgr.repo.db m with
  | none => simp [InMemoryRepository.theaterAt, he] at hat
  | some e =>
    have ht : mapFind e.theaters t = some th := by
      simpa only [InMemoryRepository.theaterAt, he] using hat
    obtain ⟨b, th1, htb, hbook⟩ := BookingManager.book_known mgr m t S e th he ht
    obtain ⟨th2, h2, -, -, hocc⟩ := Theater.tryBook_accept th S h
    rw [h2] at htb
    simp only [Except.ok.injEq, Prod.mk.injEq] at htb
    obtain ⟨rfl, rfl⟩ := htb
    refine ⟨_, th2, hbook, h2, ?_, ?_, hocc⟩
    · rw [InMemoryRepository.theaterAt_stored mgr.repo m t e th th2 he ht, if_pos ⟨rfl, rfl⟩]
    · intro m2 t2 hne
      rw [InMemoryRepository.theaterAt_stored mgr.repo m t e th th2 he ht, if_neg]
      rintro ⟨rfl, rfl⟩
      rcases hne with h1 | h1 <;> exact h1 rfl

/-- The loop of `BookSeats` runs to its end when no label repeats and none was seen
before; it then has appended the converted seats in request order. -/
theorem BookingServiceImpl.collectSeats_some (l : List WireSeat) :
    ∀ (uniq : List String) (seats : List Seat),
      (l.map WireSeat.label).Nodup → (∀ x ∈ l.map WireSeat.label, x ∉ uniq) →
      BookingServiceImpl.collectSeats l uniq seats = some (seats ++ l.map WireSeat.toSeat) := by
  induction l with
  | nil => intro uniq seats _ _; simp [BookingServiceImpl.collectSeats]
  | cons s rest ih =>
    intro uniq seats hnd hdis
    rw [List.map_cons, List.nodup_cons] at hnd
    have hs : s.label ∉ uniq := hdis s.label (by simp)
    rw [BookingServiceImpl.collectSeats, if_neg hs, ih (s.label :: uniq) _ hnd.2]
    · simp
    · intro x hx
      rw [List.mem_cons, not_or]
      refine ⟨?_, hdis x (by rw [List.map_cons]; exact List.mem_cons_of_mem _ hx)⟩
      rintro rfl
      exact hnd.1 hx

/-- The loop of `BookSeats` stops at the first label that repeats or was seen before. -/
theorem BookingServiceImpl.collectSeats_none (l : List WireSeat) :
    ∀ (uniq : List String) (seats : List Seat),
      ¬ ((l.map WireSeat.label).Nodup ∧ ∀ x ∈ l.map WireSeat.label, x ∉ uniq) →
      BookingServiceImpl.collectSeats l uniq seats = none := by
  induction l with
  | nil => intro uniq seats h; exact absurd ⟨List.nodup_nil, by simp⟩ h
  | cons s rest ih =>
    intro uniq seats h
    rw [BookingServiceImpl.collectSeats]
    by_cases hs : s.label ∈ uniq
    · rw [if_pos hs]
    · rw [if_neg hs]
      apply ih
      rintro ⟨hnd, hdis⟩
      apply h
      refine ⟨?_, ?_⟩
      · rw [List.map_cons, List.nodup_cons]
        refine ⟨fun hmem => ?_, hnd⟩
        exact hdis s.label hmem (List.mem_cons_self _ _)
      · intro x hx
        rw [List.map_cons, List.mem_cons] at hx
        rcases hx with rfl | hx
        · exact hs
        · exact fun hxu => hdis x hx (List.mem_cons_of_mem _ hxu)

/-- A request with a repeated label is answered before `book` is called. -/
theorem BookingServiceImpl.BookSeatsVia_dup {σ : Type}
    (book : σ → Nat → Nat → List Seat → Except Exn (Bool × σ)) (mgr : σ) (req : BookingReq)
    (h : ¬ (req.seats.map WireSeat.label).Nodup) :
    BookingServiceImpl.BookSeatsVia book mgr req =
      .ok (⟨StatusCode.INVALID_ARGUMENT, "duplicate seat label in request"⟩, ⟨false⟩, mgr) := by
  unfold BookingServiceImpl.BookSeatsVia
  rw [BookingServiceImpl.collectSeats_none req.seats [] [] (fun hc => h hc.1)]

/-- A non-empty request without repeated labels is handed to `book` with the converted
seats, and the answer of `book` decides the status. -/
theorem BookingServiceImpl.BookSeatsVia_forward {σ : Type}
    (book : σ → Nat → Nat → List Seat → Except Exn (Bool × σ)) (mgr : σ) (req : BookingReq)
    (hnd : (req.seats.map WireSeat.label).Nodup) (hne : req.seats ≠ []) :
    BookingServiceImpl.BookSeatsVia book mgr req =
      match book mgr req.movie_id req.theater_id (req.seats.map WireSeat.toSeat) with
      | .error e => .error e
      | .ok (ok, mgr1) =>
        if !ok then
          .ok (⟨StatusCode.ALREADY_EXISTS, "one or more seats already booked"⟩, ⟨ok⟩, mgr1)
        else .ok (Status.OK, ⟨ok⟩, mgr1) := by
  unfold BookingServiceImpl.BookSeatsVia
  rw [BookingServiceImpl.collectSeats_some req.seats [] [] hnd (by simp), List.nil_append]
  have hemp : (req.seats.map WireSeat.toSeat).isEmpty = false := by
    cases hs : req.seats with
    | nil => exact absurd hs hne
    | cons a rest => rfl
  simp only [hemp, Bool.false_eq_true, if_false]

/-- The call `tryBook` changes neither the id nor the name of the theater. -/
theorem Theater.tryBook_id_name (th th1 : Theater) (S : List Seat) (b : Bool)
    (h : th.tryBook S = .ok (b, th1)) : th1.id = th.id ∧ th1.name = th.name := by
  rcases Theater.tryBook_cases th S with hall | hsome
  · obtain ⟨th2, h2, hid, hname, -⟩ := Theater.tryBook_accept th S hall
    rw [h2] at h
    simp only [Except.ok.injEq, Prod.mk.injEq] at h
    rw [← h.2]
    exact ⟨hid, hname⟩
  · rw [Theater.tryBook_reject th S hsome] at h
    simp only [Except.ok.injEq, Prod.mk.injEq] at h
    rw [← h.2]
    exact ⟨rfl, rfl⟩

/-- A `book` call keeps the structure of the catalog. -/
theorem BookingManager.book_shape (mgr mgr1 : BookingManager) (m t : Nat) (S : List Seat)
    (b : Bool) (h : mgr.book m t S = .ok (b, mgr1)) : mgr1.repo.shape = mgr.repo.shape := by
  cases he : mapFind mgr.repo.db m with
  | none =>
    rw [BookingManager.book_unknown mgr m t S
      (by intro e h2; rw [he] at h2; exact absurd h2 (by simp))] at h
    simp only [Except.ok.injEq, Prod.mk.injEq] at h
    rw [← h.2]
  | some e =>
    cases ht : mapFind e.theaters t with
    | none =>
      rw [BookingManager.book_unknown mgr m t S
        (by intro e2 h2; rw [he] at h2; injection h2 with h2; rw [← h2]; exact ht)] at h
      simp only [Except.ok.injEq, Prod.mk.injEq] at h
      rw [← h.2]
    | some th =>
      obtain ⟨b2, th1, htb, hbook⟩ := BookingManager.book_known mgr m t S e th he ht
      rw [hbook] at h
      simp only [Except.ok.injEq, Prod.mk.injEq] at h
      rw [← h.2]
      obtain ⟨hid, hname⟩ := Theater.tryBook_id_name th th1 S b2 htb
      unfold InMemoryRepository.shape
      refine mapStore_map_eq _ mgr.repo.db m e _ he ?_
      have hin : (mapStore e.theaters t th1).map
            (fun q : Nat × Theater => (q.1, q.2.id, q.2.name))
          = e.theaters.map (fun q : Nat × Theater => (q.1, q.2.id, q.2.name)) :=
        mapStore_map_eq _ e.theaters t th th1 ht (by simp only [hid, hname])
      simp only [hin]

/-- A sequence of `book` calls keeps the structure of the catalog. -/
theorem BookingManager.bookAll_shape (reqs : List (Nat × Nat × List Seat)) :
    ∀ mgr mgr1 : BookingManager, mgr.bookAll reqs = .ok mgr1 →
      mgr1.repo.shape = mgr.repo.shape := by
  induction reqs with
  | nil =>
    intro mgr mgr1 h
    simp only [BookingManager.bookAll, Except.ok.injEq] at h
    rw [h]
  | cons q rest ih =>
    intro mgr mgr1 h
    obtain ⟨m, t, S⟩ := q
    obtain ⟨b, mgr2, hb, -⟩ := BookingManager.book_mono mgr m t S
    simp only [BookingManager.bookAll, hb] at h
    rw [ih mgr2 mgr1 h, BookingManager.book_shape mgr mgr2 m t S b hb]

/-- A movie with at least one theater is listed with status `OK`, one entry per entry of
its theater map. -/
theorem BookingServiceImpl.ListTheaters_known (mgr : BookingManager) (m : Nat) (e : Entry)
    (he : mapFind mgr.repo.db m = some e) (hne : e.theaters ≠ []) :
    BookingServiceImpl.ListTheaters mgr m =
      (Status.OK, e.theaters.map (fun q => (⟨q.2.id, q.2.name⟩ : WireTheater))) := by
  unfold BookingServiceImpl.ListTheaters BookingManager.theaters InMemoryRepository.theaters
  have hemp : (e.theaters.map Prod.snd).isEmpty = false := by
    cases hs : e.theaters with
    | nil => exact absurd hs hne
    | cons a rest => rfl
  simp only [he, hemp, Bool.false_eq_true, if_false, List.map_map]
  rfl

/-- An unknown movie id is answered with `NOT_FOUND`. -/
theorem BookingServiceImpl.ListTheaters_unknown (mgr : BookingManager) (m : Nat)
    (he : mapFind mgr.repo.db m = none) :
    BookingServiceImpl.ListTheaters mgr m =
      (⟨StatusCode.NOT_FOUND, "movie id not found"⟩, []) := by
  unfold BookingServiceImpl.ListTheaters BookingManager.theaters InMemoryRepository.theaters
  simp only [he]
  rfl

/-- Two theaters with the same id, name and occupancy of every seat are the same. -/
theorem Theater.ext_occupied (a b : Theater) (hid : a.id = b.id) (hname : a.name = b.name)
    (hocc : ∀ i, a.occupied i = b.occupied i) : a = b := by
  obtain ⟨ida, na, ⟨la, ha⟩⟩ := a
  obtain ⟨idb, nb, ⟨lb, hb⟩⟩ := b
  simp only at hid hname
  subst hid
  subst hname
  have hl : la = lb := by
    apply List.ext_getElem (by rw [ha, hb])
    intro n h1 h2
    have := hocc n
    simp only [Theater.occupied] at this
    rw [List.getD_eq_getElem la false h1, List.getD_eq_getElem lb false h2] at this
    exact this
  subst hl
  rfl

/-- Whether some seat of a list has index `i`, as a proposition. -/
theorem any_index_eq_true (S : List Seat) (i : Nat) :
    S.any (fun s => s.index == i) = true ↔ ∃ s ∈ S, s.index = i := by
  rw [List.any_eq_true]
  constructor
  · rintro ⟨s, hs, h⟩
    exact ⟨s, hs, by simpa using h⟩
  · rintro ⟨s, hs, h⟩
    exact ⟨s, hs, by simpa using h⟩

/-- No seat of a list has index `i`, as a proposition. -/
theorem any_index_eq_false (S : List Seat) (i : Nat) :
    S.any (fun s => s.index == i) = false ↔ ∀ s ∈ S, s.index ≠ i := by
  rw [← Bool.not_eq_true, any_index_eq_true]
  push_neg
  rfl

/-- The id and name of the addressed theater can be read off the catalog structure. -/
theorem InMemoryRepository.theaterAt_shape (r : InMemoryRepository) (m t : Nat) :
    (r.theaterAt m t).map (fun th => (th.id, th.name)) = shapeAt r.shape m t := by
  unfold InMemoryRepository.theaterAt shapeAt InMemoryRepository.shape
  rw [mapFind_map (fun e : Entry =>
    e.theaters.map (fun q : Nat × Theater => (q.1, q.2.id, q.2.name))) r.db m]
  cases mapFind r.db m with
  | none => rfl
  | some e =>
    show (mapFind e.theaters t).map (fun th => (th.id, th.name)) =
      mapFind (e.theaters.map (fun q : Nat × Theater => (q.1, q.2.id, q.2.name))) t
    rw [mapFind_map (fun th : Theater => (th.id, th.name)) e.theaters t]

/-- The pairs of movie id and theater id of the seeded catalog, and the id stored in each
theater. -/
theorem shapeAt_seed (m t : Nat) (x : Nat × String) :
    shapeAt [(1, [(101, 101, "CinemaA-Hall1"), (102, 102, "CinemaA-Hall2")]),
      (2, [(201, 201, "CinemaB-Hall1")])] m t = some x ↔
    ((m = 1 ∧ t = 101 ∧ x = (101, "CinemaA-Hall1")) ∨
     (m = 1 ∧ t = 102 ∧ x = (102, "CinemaA-Hall2")) ∨
     (m = 2 ∧ t = 201 ∧ x = (201, "CinemaB-Hall1"))) := by
  by_cases h1 : m = 1
  · subst h1
    by_cases ha : t = 101
    · subst ha
      simp [shapeAt, mapFind, eq_comm]
    · by_cases hb : t = 102
      · subst hb
        simp [shapeAt, mapFind, eq_comm]
      · have ha2 : ¬ 101 = t := fun h => ha h.symm
        have hb2 : ¬ 102 = t := fun h => hb h.symm
        simp [shapeAt, mapFind, ha, hb, ha2, hb2]
  · by_cases h2 : m = 2
    · subst h2
      by_cases hc : t = 201
      · subst hc
        simp [shapeAt, mapFind, eq_comm]
      · have hc2 : ¬ 201 = t := fun h => hc h.symm
        simp [shapeAt, mapFind, hc, hc2]
    · have h1b : ¬ 1 = m := fun h => h1 h.symm
      have h2b : ¬ 2 = m := fun h => h2 h.symm
      simp [shapeAt, mapFind, h1, h2, h1b, h2b]

/-- With an unknown movie or theater id, `freeSeats` raises `std::out_of_range`. -/
theorem BookingManager.freeSeats_unknown (mgr : BookingManager) (m t : Nat)
    (hat : mgr.repo.theaterAt m t = none) : mgr.freeSeats m t = .error .out_of_range := by
  unfold BookingManager.freeSeats InMemoryRepository.freeSeats
  unfold InMemoryRepository.theaterAt at hat
  cases he : mapFind mgr.repo.db m with
  | none => rfl
  | some e =>
    have ht : mapFind e.theaters t = none := by simpa only [he] using hat
    simp only [ht]

/-- With known ids, `freeSeats` is the `freeSeats()` of the addressed theater. -/
theorem BookingManager.freeSeats_known (mgr : BookingManager) (m t : Nat) (th : Theater)
    (hat : mgr.repo.theaterAt m t = some th) : mgr.freeSeats m t = th.freeSeats := by
  unfold BookingManager.freeSeats InMemoryRepository.freeSeats
  unfold InMemoryRepository.theaterAt at hat
  cases he : mapFind mgr.repo.db m with
  | none => rw [he] at hat; exact absurd hat (by simp)
  | some e =>
    have ht : mapFind e.theaters t = some th := by simpa only [he] using hat
    simp only [ht]

/-- The three outcomes of `book`: unknown ids, a request the theater accepts, a request
the theater refuses. -/
theorem BookingManager.book_cases (mgr : BookingManager) (m t : Nat) (S : List Seat) :
    (mgr.repo.theaterAt m t = none ∧ mgr.book m t S = .ok (false, mgr)) ∨
    (∃ th, mgr.repo.theaterAt m t = some th ∧
      (∃ s ∈ S, kCapacity ≤ s.index ∨ th.occupied s.index = true) ∧
      mgr.book m t S = .ok (false, mgr)) ∨
    (∃ th mgr1 th1, mgr.repo.theaterAt m t = some th ∧
      (∀ s ∈ S, s.index < kCapacity ∧ th.occupied s.index = false) ∧
      mgr.book m t S = .ok (true, mgr1) ∧ mgr1.repo.theaterAt m t = some th1 ∧
      ∀ i, th1.occupied i = (th.occupied i || S.any (fun s => s.index == i))) := by
  cases hat : mgr.repo.theaterAt m t with
  | none =>
    exact Or.inl ⟨rfl, BookingManager.book_reject mgr m t S
      (by intro th hth; rw [hat] at hth; exact absurd hth (by simp))⟩
  | some th =>
    right
    rcases Theater.tryBook_cases th S with hall | hsome
    · right
      obtain ⟨mgr1, th1, hbook, -, hat1, -, hocc⟩ := BookingManager.book_accept mgr m t S th hat hall
      exact ⟨th, mgr1, th1, rfl, hall, hbook, hat1, hocc⟩
    · left
      refine ⟨th, rfl, hsome, BookingManager.book_reject mgr m t S ?_⟩
      intro th2 hth2
      rw [hat] at hth2
      injection hth2 with hth2
      rw [← hth2]
      exact hsome

/-- Taking free in-range seats lowers the number of free seats by the number of distinct
indices taken. -/
theorem free_count_after (occ occ1 : Nat → Bool) (S : List Seat)
    (hall : ∀ s ∈ S, s.index < kCapacity ∧ occ s.index = false)
    (hocc : ∀ i, occ1 i = (occ i || S.any (fun s => s.index == i))) :
    ((List.range kCapacity).filter (fun i => !occ1 i)).length + (S.map Seat.index).dedup.length
      = ((List.range kCapacity).filter (fun i => !occ i)).length := by
  have hsplit := List.length_eq_length_filter_add
    (l := (List.range kCapacity).filter (fun i => !occ i)) (fun i => S.any (fun s => s.index == i))
  have hA : (List.range kCapacity).filter (fun i => !occ1 i) =
      ((List.range kCapacity).filter (fun i => !occ i)).filter
        (fun i => !S.any (fun s => s.index == i)) := by
    rw [List.filter_filter]
    apply List.filter_congr
    intro i _
    rw [hocc i]
    cases occ i <;> cases S.any (fun s => s.index == i) <;> rfl
  have hD : (S.map Seat.index).dedup.length =
      (((List.range kCapacity).filter (fun i => !occ i)).filter
        (fun i => S.any (fun s => s.index == i))).length := by
    apply List.Perm.length_eq
    rw [List.perm_ext_iff_of_nodup (List.nodup_dedup _)
      (((List.nodup_range kCapacity).filter _).filter _)]
    intro i
    rw [List.mem_dedup, List.mem_filter, List.mem_filter, List.mem_range, List.mem_map,
      any_index_eq_true]
    constructor
    · rintro ⟨s, hs, rfl⟩
      refine ⟨⟨(hall s hs).1, ?_⟩, s, hs, rfl⟩
      rw [(hall s hs).2]
      rfl
    · rintro ⟨-, s, hs, rfl⟩
      exact ⟨s, hs, rfl⟩
  rw [hsplit, hA, hD, Nat.add_comm]

/-- The members of a non-empty list of seats that all have index `i` cover exactly `i`. -/
theorem any_index_of_all_eq (S : List Seat) (i j : Nat) (hne : S ≠ [])
    (hall : ∀ s ∈ S, s.index = i) : S.any (fun s => s.index == j) = decide (i = j) := by
  obtain ⟨a, rest, rfl⟩ := List.exists_cons_of_ne_nil hne
  by_cases hij : i = j
  · rw [decide_eq_true hij, any_index_eq_true]
    exact ⟨a, List.mem_cons_self _ _, by rw [hall a (List.mem_cons_self _ _), hij]⟩
  · rw [decide_eq_false hij, any_index_eq_false]
    intro s hs
    rw [hall s hs]
    exact hij

/-- The result of `tryBook` depends on the id and name of the theater only in that it
carries them along. -/
theorem Theater.tryBook_relabel (th : Theater) (id : Nat) (nm : String) (S : List Seat)
    (b : Bool) (th1 : Theater) (h : th.tryBook S = .ok (b, th1)) :
    (Theater.mk id nm th.occupancy).tryBook S = .ok (b, ⟨id, nm, th1.occupancy⟩) := by
  unfold Theater.tryBook at h ⊢
  cases hr : Theater.anyOutOfRange S with
  | true =>
    simp only [hr, if_true, Except.ok.injEq, Prod.mk.injEq] at h ⊢
    rw [← h.1, ← h.2]
    exact ⟨rfl, rfl⟩
  | false =>
    simp only [hr, Bool.false_eq_true, if_false] at h ⊢
    cases ht : Theater.anyTaken th.occupancy S with
    | error e => simp only [ht] at h; exact absurd h (by simp)
    | ok taken =>
      cases taken with
      | true =>
        simp only [ht, Except.ok.injEq, Prod.mk.injEq] at h ⊢
        rw [← h.1, ← h.2]
        exact ⟨rfl, rfl⟩
      | false =>
        simp only [ht] at h ⊢
        cases hs : Theater.setAll th.occupancy S with
        | error e => simp only [hs] at h; exact absurd h (by simp)
        | ok occ =>
          simp only [hs, Except.ok.injEq, Prod.mk.injEq] at h ⊢
          rw [← h.1, ← h.2]
          exact ⟨rfl, rfl⟩

/-- The results of a sequence of `tryBook` calls depend on the id and name of the theater
only in that the final theater carries them along. -/
theorem Theater.tryBookAll_relabel (reqs : List (List Seat)) :
    ∀ (th : Theater) (id : Nat) (nm : String) (bs : List Bool) (th1 : Theater),
      th.tryBookAll reqs = .ok (bs, th1) →
      (Theater.mk id nm th.occupancy).tryBookAll reqs = .ok (bs, ⟨id, nm, th1.occupancy⟩) := by
  induction reqs with
  | nil =>
    intro th id nm bs th1 h
    simp only [Theater.tryBookAll, Except.ok.injEq, Prod.mk.injEq] at h ⊢
    rw [← h.1, ← h.2]
    exact ⟨rfl, rfl⟩
  | cons S rest ih =>
    intro th id nm bs th1 h
    obtain ⟨r, th2, hstep, -⟩ := Theater.step_mono th (.tryBook S)
    cases htb : th.tryBook S with
    | error e =>
      simp only [Theater.step, htb] at hstep
      exact absurd hstep (by simp)
    | ok p =>
      obtain ⟨b, tha⟩ := p
      simp only [Theater.tryBookAll, htb] at h
      cases hrest : tha.tryBookAll rest with
      | error e => simp only [hrest] at h; exact absurd h (by simp)
      | ok q =>
        obtain ⟨bs2, thb⟩ := q
        simp only [hrest, Except.ok.injEq, Prod.mk.injEq] at h
        have h1 := Theater.tryBook_relabel th id nm S b tha htb
        have h2 := ih tha id nm bs2 thb hrest
        simp only [Theater.tryBookAll, h1, h2, Except.ok.injEq, Prod.mk.injEq]
        rw [← h.1, ← h.2]
        exact ⟨rfl, rfl⟩

/-- In a hall with every seat taken, each seat below the capacity is occupied. -/
theorem hallFull_occupied (id : Nat) (nm : String) (i : Nat) (hi : i < kCapacity) :
    (hallFull id nm).occupied i = true := by
  unfold hallFull Theater.occupied
  rw [List.getD_eq_getElem _ false (by rw [List.length_replicate]; exact hi),
    List.getElem_replicate]

set_option maxRecDepth 100000 in
/-- The conversion of the `book` command reads back the index from the label of
`Seat::fromIndex`, for every 8-bit index. -/
theorem cliIndex_fromIndex :
    ∀ i < 256, cliIndex (Seat.fromIndex i).label = .ok (Int.ofNat i) := by
  decide

/-- Different 8-bit indices get different labels. -/
theorem fromIndex_label_injective (i j : Nat) (hi : i < 256) (hj : j < 256)
    (h : (Seat.fromIndex i).label = (Seat.fromIndex j).label) : i = j := by
  have h1 := cliIndex_fromIndex i hi
  rw [h, cliIndex_fromIndex j hj] at h1
  injection h1 with h1
  exact (Int.ofNat.inj h1).symm

/-- The manager's `book` returns what the repository's `book` returns. -/
theorem BookingManager.book_eq_ok_iff (mgr mgr1 : BookingManager) (m t : Nat) (S : List Seat)
    (b : Bool) : mgr.book m t S = .ok (b, mgr1) ↔ mgr.repo.book m t S = .ok (b, mgr1.repo) := by
  unfold BookingManager.book
  cases hb : mgr.repo.book m t S with
  | error x => simp
  | ok p =>
    obtain ⟨b2, r2⟩ := p
    obtain ⟨r1⟩ := mgr1
    simp

/-- A `book` call leaves every theater other than the addressed one as it was. -/
theorem BookingManager.book_frame (mgr mgr1 : BookingManager) (m t : Nat) (S : List Seat)
    (b : Bool) (h : mgr.book m t S = .ok (b, mgr1)) (m2 t2 : Nat) (hne : m2 ≠ m ∨ t2 ≠ t) :
    mgr1.repo.theaterAt m2 t2 = mgr.repo.theaterAt m2 t2 := by
  rcases BookingManager.book_cases mgr m t S with ⟨-, hb⟩ | ⟨th, -, -, hb⟩ |
      ⟨th, mgr2, th1, hat, hall, hb, -, -⟩
  · rw [hb] at h
    simp only [Except.ok.injEq, Prod.mk.injEq] at h
    rw [← h.2]
  · rw [hb] at h
    simp only [Except.ok.injEq, Prod.mk.injEq] at h
    rw [← h.2]
  · obtain ⟨mgr3, th3, hb3, -, -, hframe, -⟩ := BookingManager.book_accept mgr m t S th hat hall
    rw [hb3] at h
    simp only [Except.ok.injEq, Prod.mk.injEq] at h
    rw [← h.2]
    exact hframe m2 t2 hne

/-- The answer of `freeSeats` is determined by the addressed theater. -/
theorem BookingManager.freeSeats_congr (mgr mgr1 : BookingManager) (m t : Nat)
    (h : mgr1.repo.theaterAt m t = mgr.repo.theaterAt m t) :
    mgr1.freeSeats m t = mgr.freeSeats m t := by
  cases hat : mgr.repo.theaterAt m t with
  | none =>
    rw [BookingManager.freeSeats_unknown mgr m t hat,
      BookingManager.freeSeats_unknown mgr1 m t (h.trans hat)]
  | some th =>
    rw [BookingManager.freeSeats_known mgr m t th hat,
      BookingManager.freeSeats_known mgr1 m t th (h.trans hat)]

/-- A request that leaves the addressed theater as it was leaves the manager as it was. -/
theorem BookingManager.book_same_theater (mgr : BookingManager) (m t : Nat) (S : List Seat)
    (th : Theater) (b : Bool) (hat : mgr.repo.theaterAt m t = some th)
    (htb : th.tryBook S = .ok (b, th)) : mgr.book m t S = .ok (b, mgr) := by
  cases he : mapFind mgr.repo.db m with
  | none => simp [InMemoryRepository.theaterAt, he] at hat
  | some e =>
    have ht : mapFind e.theaters t = some th := by
      simpa only [InMemoryRepository.theaterAt, he] using hat
    obtain ⟨b2, th1, htb2, hbook⟩ := BookingManager.book_known mgr m t S e th he ht
    rw [htb] at htb2
    simp only [Except.ok.injEq, Prod.mk.injEq] at htb2
    obtain ⟨rfl, rfl⟩ := htb2
    rw [hbook, mapStore_self e.theaters t th ht]
    have hself : mapStore mgr.repo.db m { e with theaters := e.theaters } = mgr.repo.db :=
      mapStore_self mgr.repo.db m e he
    rw [hself]

/-- For known ids `ListFreeSeats` answers `NOT_FOUND` when the free-seat list is empty and
`OK` with the free seats otherwise. -/
theorem BookingServiceImpl.ListFreeSeats_known (mgr : BookingManager) (m t : Nat)
    (th : Theater) (hat : mgr.repo.theaterAt m t = some th) :
    BookingServiceImpl.ListFreeSeats mgr m t =
      if (((List.range kCapacity).filter (fun i => !th.occupied i)).map Seat.fromIndex).isEmpty
      then .ok (⟨StatusCode.NOT_FOUND, "movie/theater id not found"⟩, [])
      else .ok (Status.OK,
        (((List.range kCapacity).filter (fun i => !th.occupied i)).map Seat.fromIndex).map
          (fun s => (⟨s.index, s.label⟩ : WireSeat))) := by
  unfold BookingServiceImpl.ListFreeSeats
  rw [BookingManager.freeSeats_known mgr m t th hat, Theater.freeSeats_eq]

/-- The loop of `BookSeats` gives the same result on the request whose wire indices were
reduced modulo 256 beforehand. -/
theorem BookingServiceImpl.collectSeats_mod (l : List WireSeat) :
    ∀ (uniq : List String) (seats : List Seat),
      BookingServiceImpl.collectSeats
        (l.map (fun s => (⟨s.index % 256, s.label⟩ : WireSeat))) uniq seats =
      BookingServiceImpl.collectSeats l uniq seats := by
  induction l with
  | nil => intro uniq seats; rfl
  | cons s rest ih =>
    intro uniq seats
    simp only [List.map_cons, BookingServiceImpl.collectSeats, WireSeat.toSeat, Nat.mod_mod, ih]

/-! ## The claims -/

/-- C1. Atomicity on success: if `tryBook(S)` returns `true`, then immediately afterwards
`freeSeats()` contains no seat whose index occurs in `S`, and every seat index not
occurring in `S` has the same occupied/free state as before the call. -/
theorem C1_tryBook_success_atomic (th th1 : Theater) (S : List Seat)
    (h : th.tryBook S = .ok (true, th1)) :
    (∃ v, th1.freeSeats = .ok v ∧ ∀ f ∈ v, ∀ s ∈ S, f.index ≠ s.index) ∧
    (∀ i, (∀ s ∈ S, s.index ≠ i) → th1.occupied i = th.occupied i) := by
  rcases Theater.tryBook_cases th S with hall | hsome
  · obtain ⟨th2, h2, -, -, hocc⟩ := Theater.tryBook_accept th S hall
    rw [h2] at h
    have heq : th2 = th1 := by injection h with h; injection h
    subst heq
    refine ⟨⟨_, Theater.freeSeats_eq th2, ?_⟩, ?_⟩
    · intro f hf s hs hfs
      obtain ⟨j, hj, rfl⟩ := List.mem_map.1 hf
      have hfree : th2.occupied j = false := by
        have := (List.mem_filter.1 hj).2
        simpa using this
      rw [hocc j] at hfree
      have hany : S.any (fun s => s.index == j) = true :=
        List.any_eq_true.2 ⟨s, hs, by simpa [Seat.fromIndex] using hfs.symm⟩
      rw [hany] at hfree
      simp at hfree
    · intro i hi
      rw [hocc i]
      have hany : S.any (fun s => s.index == i) = false := by
        cases hc : S.any (fun s => s.index == i)
        · rfl
        · obtain ⟨s, hs, hsi⟩ := List.any_eq_true.1 hc
          exact absurd (by simpa using hsi) (hi s hs)
      rw [hany, Bool.or_false]
  · rw [Theater.tryBook_reject th S hsome] at h
    injection h with h
    injection h with h
    exact absurd h (by decide)

/-- C1 at a concrete input: booking seats 0 and 5 of a fresh hall. -/
theorem C1_tryBook_success_atomic_witness :
    hall0.tryBook [⟨0, "A1"⟩, ⟨5, "A6"⟩] = .ok (true, hall05) ∧
    ((∃ v, hall05.freeSeats = .ok v ∧
        ∀ f ∈ v, ∀ s ∈ [(⟨0, "A1"⟩ : Seat), ⟨5, "A6"⟩], f.index ≠ s.index) ∧
      (∀ i, (∀ s ∈ [(⟨0, "A1"⟩ : Seat), ⟨5, "A6"⟩], s.index ≠ i) →
        hall05.occupied i = hall0.occupied i)) :=
  ⟨by decide, C1_tryBook_success_atomic hall0 hall05 [⟨0, "A1"⟩, ⟨5, "A6"⟩] (by decide)⟩

/-- C2. No partial application: if at least one seat of `S` is already occupied,
`tryBook(S)` returns `false` and the theater after the call is the theater before it. -/
theorem C2_tryBook_conflict_no_change (th : Theater) (S : List Seat)
    (h : ∃ s ∈ S, th.occupied s.index = true) :
    th.tryBook S = .ok (false, th) := by
  obtain ⟨s, hs, hocc⟩ := h
  exact Theater.tryBook_reject th S ⟨s, hs, Or.inr hocc⟩

/-- C2 at a concrete input: seats 2 (free), 3 (taken) and 4 (free) requested together. -/
theorem C2_tryBook_conflict_no_change_witness :
    (∃ s ∈ [(⟨2, "A3"⟩ : Seat), ⟨3, "A4"⟩, ⟨4, "A5"⟩], hall3.occupied s.index = true) ∧
    hall3.tryBook [⟨2, "A3"⟩, ⟨3, "A4"⟩, ⟨4, "A5"⟩] = .ok (false, hall3) :=
  ⟨by decide, C2_tryBook_conflict_no_change hall3 [⟨2, "A3"⟩, ⟨3, "A4"⟩, ⟨4, "A5"⟩] (by decide)⟩

/-- C3. Boundary: if `S` contains a seat whose index is at least the capacity 20,
`tryBook(S)` returns `false` whatever the occupancy, and the theater is unchanged. -/
theorem C3_tryBook_out_of_range_rejected (th : Theater) (S : List Seat)
    (h : ∃ s ∈ S, 20 ≤ s.index) :
    kCapacity = 20 ∧ th.tryBook S = .ok (false, th) := by
  obtain ⟨s, hs, hge⟩ := h
  exact ⟨rfl, Theater.tryBook_reject th S ⟨s, hs, Or.inl hge⟩⟩

/-- C3 at a concrete input: a free in-range seat requested together with index 20. -/
theorem C3_tryBook_out_of_range_rejected_witness :
    (∃ s ∈ [(⟨1, "A2"⟩ : Seat), ⟨20, "A21"⟩], 20 ≤ s.index) ∧
    (kCapacity = 20 ∧ hall0.tryBook [⟨1, "A2"⟩, ⟨20, "A21"⟩] = .ok (false, hall0)) :=
  ⟨by decide, C3_tryBook_out_of_range_rejected hall0 [⟨1, "A2"⟩, ⟨20, "A21"⟩] (by decide)⟩

/-- C4. Exact success condition: `tryBook(S)` returns `true` if and only if every index in
`S` is below 20 and no seat of `S` is occupied before the call; in that case all seats of
`S` are occupied afterwards, and otherwise it returns `false`. -/
theorem C4_tryBook_true_iff (th : Theater) (S : List Seat) :
    ((∃ th1, th.tryBook S = .ok (true, th1)) ↔
      ∀ s ∈ S, s.index < 20 ∧ th.occupied s.index = false) ∧
    (∀ th1, th.tryBook S = .ok (true, th1) → ∀ s ∈ S, th1.occupied s.index = true) ∧
    ((¬ ∀ s ∈ S, s.index < 20 ∧ th.occupied s.index = false) →
      th.tryBook S = .ok (false, th)) := by
  have key : ∀ th1, th.tryBook S = .ok (true, th1) →
      (∀ s ∈ S, s.index < 20 ∧ th.occupied s.index = false) ∧
      ∀ s ∈ S, th1.occupied s.index = true := by
    intro th1 h
    rcases Theater.tryBook_cases th S with hall | hsome
    · refine ⟨hall, ?_⟩
      obtain ⟨th2, h2, -, -, hocc⟩ := Theater.tryBook_accept th S hall
      rw [h2] at h
      have heq : th2 = th1 := by injection h with h; injection h
      subst heq
      intro s hs
      rw [hocc s.index]
      have hany : S.any (fun r => r.index == s.index) = true :=
        List.any_eq_true.2 ⟨s, hs, by simp⟩
      rw [hany, Bool.or_true]
    · rw [Theater.tryBook_reject th S hsome] at h
      injection h with h
      injection h with h
      exact absurd h (by decide)
  refine ⟨⟨?_, ?_⟩, fun th1 h => (key th1 h).2, ?_⟩
  · rintro ⟨th1, h⟩
    exact (key th1 h).1
  · intro hall
    obtain ⟨th2, h2, -⟩ := Theater.tryBook_accept th S hall
    exact ⟨th2, h2⟩
  · intro hn
    rcases Theater.tryBook_cases th S with hall | hsome
    · exact absurd hall hn
    · exact Theater.tryBook_reject th S hsome

/-- C5 as stated fails for the empty seat list: on the seeded repository `book(1, 101, [])`
returns `true`, and the identical request repeated returns `true` again, not `false`. -/
theorem C5_counterexample_empty_request :
    ∃ mgr1, mgr0.book 1 101 [] = .ok (true, mgr1) ∧
      mgr1.book 1 101 [] = .ok (true, mgr1) ∧
      ¬ ∃ mgr3, mgr1.book 1 101 [] = .ok (false, mgr3) := by
  refine ⟨mgr0, by decide, by decide, ?_⟩
  rintro ⟨mgr3, h⟩
  have h2 : mgr0.book 1 101 [] = .ok (true, mgr0) := by decide
  rw [h2] at h
  simp at h

/-- C5 (amended). Idempotent rejection for non-empty requests: if `book(m, t, S)` with a
non-empty seat list `S` returned `true`, then after any further sequence of `book` calls
the identical request returns `false` and changes nothing, and the seats of `S` are
still occupied. -/
theorem C5_idempotent_rejection_nonempty (mgr mgr1 : BookingManager) (m t : Nat)
    (S : List Seat) (hne : S ≠ []) (h : mgr.book m t S = .ok (true, mgr1))
    (later : List (Nat × Nat × List Seat)) :
    ∃ mgr3, mgr1.bookAll later = .ok mgr3 ∧
      mgr3.book m t S = .ok (false, mgr3) ∧
      ∀ s ∈ S, mgr3.occupied m t s.index = true := by
  obtain ⟨mgr3, h3, hmono⟩ := BookingManager.bookAll_mono later mgr1
  have hocc : ∀ s ∈ S, mgr3.occupied m t s.index = true := fun s hs =>
    hmono m t s.index (BookingManager.book_true_occupied mgr mgr1 m t S h s hs)
  refine ⟨mgr3, h3, ?_, hocc⟩
  obtain ⟨s, rest, rfl⟩ := List.exists_cons_of_ne_nil hne
  exact BookingManager.book_taken mgr3 m t _ ⟨s, List.mem_cons_self _ _, hocc s (List.mem_cons_self _ _)⟩

/-- C5 (amended) at a concrete input: seat 2 of theater 101 booked, then seat 0 of theater
201 booked and the first request repeated. -/
theorem C5_idempotent_rejection_nonempty_witness :
    [(⟨2, "A3"⟩ : Seat)] ≠ [] ∧ mgr0.book 1 101 [⟨2, "A3"⟩] = .ok (true, mgr2) ∧
    ∃ mgr3, mgr2.bookAll [(2, 201, [⟨0, "A1"⟩]), (1, 101, [⟨2, "A3"⟩])] = .ok mgr3 ∧
      mgr3.book 1 101 [⟨2, "A3"⟩] = .ok (false, mgr3) ∧
      ∀ s ∈ [(⟨2, "A3"⟩ : Seat)], mgr3.occupied 1 101 s.index = true :=
  ⟨by decide, by decide,
    C5_idempotent_rejection_nonempty mgr0 mgr2 1 101 [⟨2, "A3"⟩] (by decide) (by decide)
      [(2, 201, [⟨0, "A1"⟩]), (1, 101, [⟨2, "A3"⟩])]⟩

/-- C6. Repeated requests for one seat: for an in-range free seat `x` and `k >= 1`
identical single-seat requests applied one after another, exactly the first returns `true`
and the other `k - 1` return `false`; the final state differs from the initial one in
exactly seat `x` being occupied. -/
theorem C6_repeated_single_seat (th : Theater) (s : Seat) (k : Nat) (hk : 1 ≤ k)
    (hlt : s.index < 20) (hfree : th.occupied s.index = false) :
    ∃ th1, th.tryBookAll (List.replicate k [s]) = .ok (true :: List.replicate (k - 1) false, th1) ∧
      th1.occupied s.index = true ∧
      (∀ i, i ≠ s.index → th1.occupied i = th.occupied i) ∧
      th1.id = th.id ∧ th1.name = th.name := by
  obtain ⟨n, rfl⟩ : ∃ n, k = n + 1 := ⟨k - 1, by omega⟩
  have hall : ∀ r ∈ [s], r.index < kCapacity ∧ th.occupied r.index = false := by
    intro r hr
    rw [List.mem_singleton.1 hr]
    exact ⟨hlt, hfree⟩
  obtain ⟨th1, h1, hid, hname, hocc⟩ := Theater.tryBook_accept th [s] hall
  have hx : th1.occupied s.index = true := by
    rw [hocc s.index]; simp
  refine ⟨th1, ?_, hx, ?_, hid, hname⟩
  · rw [List.replicate_succ, Theater.tryBookAll, h1]
    simp only [Theater.tryBookAll_taken th1 s hx n]
    rfl
  · intro i hi
    rw [hocc i]
    have : ([s].any fun r => r.index == i) = false := by
      simp only [List.any_cons, List.any_nil, Bool.or_false, beq_eq_false_iff_ne]
      exact fun h => hi h.symm
    rw [this, Bool.or_false]

/-- C6 at a concrete input: Scenario C, four requests for seat 3 of a fresh hall. -/
theorem C6_repeated_single_seat_witness :
    ∃ th1, hall0.tryBookAll (List.replicate 4 [⟨3, "A4"⟩])
        = .ok (true :: List.replicate (4 - 1) false, th1) ∧
      th1.occupied (Seat.mk 3 "A4").index = true ∧
      (∀ i, i ≠ (Seat.mk 3 "A4").index → th1.occupied i = hall0.occupied i) ∧
      th1.id = hall0.id ∧ th1.name = hall0.name :=
  C6_repeated_single_seat hall0 ⟨3, "A4"⟩ 4 (by decide) (by decide) (by decide)

/-- C7. Occupancy is monotone: after any sequence of calls (`tryBook` with any arguments,
`freeSeats`) followed by one more call, every seat occupied at the start is still
occupied; the last call frees no seat, and a seat it takes is named in a `tryBook` that
returns `true`; the bitset still tracks exactly 20 seats. -/
theorem C7_occupancy_monotone (th : Theater) (ops : List Op) (op : Op) :
    ∃ th1 r th2, th.run ops = .ok th1 ∧ th1.step op = .ok (r, th2) ∧
      th.run (ops ++ [op]) = .ok th2 ∧
      (∀ i, th.occupied i = true → th1.occupied i = true) ∧
      (∀ i, th1.occupied i = true → th2.occupied i = true) ∧
      (∀ i, th1.occupied i = false → th2.occupied i = true →
        ∃ S, op = .tryBook S ∧ r = .booked true ∧ ∃ s ∈ S, s.index = i) ∧
      th1.occupancy.bits.length = 20 ∧ th2.occupancy.bits.length = 20 := by
  obtain ⟨th1, hrun, hmono⟩ := Theater.run_mono ops th
  obtain ⟨r, th2, hstep, hmono2, honly⟩ := Theater.step_mono th1 op
  refine ⟨th1, r, th2, hrun, hstep, ?_, hmono, hmono2, honly,
    th1.occupancy.size_eq, th2.occupancy.size_eq⟩
  have happ : ∀ (l : List Op) (a a1 : Theater), a.run l = .ok a1 →
      a.run (l ++ [op]) = a1.run [op] := by
    intro l
    induction l with
    | nil => intro a a1 h; injection h with h; rw [h]; rfl
    | cons o rest ih =>
      intro a a1 h
      obtain ⟨r0, b, hb, -⟩ := Theater.step_mono a o
      simp only [Theater.run, hb] at h
      simp only [List.cons_append, Theater.run, hb]
      exact ih b a1 h
  rw [happ ops th th1 hrun]
  simp only [Theater.run, hstep]

/-- C8. The call `freeSeats()` returns exactly the currently unoccupied seats, each once,
in strictly ascending index order, the seat for index `i` being `Seat::fromIndex(i)` (index
`i`, label "A" followed by the decimal of `i + 1`); it does not modify the theater. -/
theorem C8_freeSeats_exact (th : Theater) :
    ∃ v, th.freeSeats = .ok v ∧
      th.step .freeSeats = .ok (.seats v, th) ∧
      v = ((List.range 20).filter (fun i => !th.occupied i)).map Seat.fromIndex ∧
      (∀ i, i ∈ v.map Seat.index ↔ (i < 20 ∧ th.occupied i = false)) ∧
      (v.map Seat.index).Pairwise (fun a b => a < b) ∧
      (∀ s ∈ v, s = Seat.fromIndex s.index ∧ s.label = "A" ++ toString (s.index + 1)) := by
  have hmap : ∀ l : List Nat, (l.map Seat.fromIndex).map Seat.index = l := by
    intro l
    induction l with
    | nil => rfl
    | cons a rest ih => simp only [List.map_cons, ih]; rfl
  refine ⟨_, Theater.freeSeats_eq th, ?_, rfl, ?_, ?_, ?_⟩
  · simp only [Theater.step, Theater.freeSeats_eq th]
  · intro i
    rw [hmap]
    show i ∈ List.filter (fun i => !th.occupied i) (List.range 20) ↔ _
    rw [List.mem_filter, List.mem_range]
    simp
  · rw [hmap]
    exact List.Pairwise.sublist (List.filter_sublist _) (List.pairwise_lt_range 20)
  · intro s hs
    obtain ⟨j, -, rfl⟩ := List.mem_map.1 hs
    exact ⟨rfl, rfl⟩

/-- C10. The call `tryBook` never throws: for every theater state and every seat list it
returns a boolean; once the validation loop has found no index out of range, every seat
index handed to `test` and `set` is below 20, so neither call takes its out-of-range
branch. -/
theorem C10_tryBook_never_throws (th : Theater) (S : List Seat) :
    (∃ b th1, th.tryBook S = .ok (b, th1)) ∧
    (Theater.anyOutOfRange S = true → th.tryBook S = .ok (false, th)) ∧
    (Theater.anyOutOfRange S = false →
      ∀ s ∈ S, s.index < 20 ∧
        (∃ b, th.occupancy.test s.index = .ok b) ∧
        (∀ occ : Bitset kCapacity, ∃ occ1, occ.set s.index = .ok occ1)) := by
  refine ⟨?_, ?_, ?_⟩
  · rcases Theater.tryBook_cases th S with hall | hsome
    · obtain ⟨th1, h1, -⟩ := Theater.tryBook_accept th S hall
      exact ⟨true, th1, h1⟩
    · exact ⟨false, th, Theater.tryBook_reject th S hsome⟩
  · intro h
    unfold Theater.tryBook
    rw [h]
    rfl
  · intro h s hs
    have hlt : s.index < kCapacity := (Theater.anyOutOfRange_eq_false_iff S).1 h s hs
    refine ⟨hlt, ⟨_, Bitset.test_of_lt th.occupancy hlt⟩, fun occ => ?_⟩
    obtain ⟨occ1, h1, -⟩ := Bitset.set_of_lt occ hlt
    exact ⟨occ1, h1⟩

/-- C11. Catalog reserve with unknown ids: `InMemoryRepository::book(m, t, S)` and
`BookingManager::book` return `false` without raising when movie id `m` is unknown or `t`
is not a theater of movie `m`, and then the repository is unchanged; otherwise the result
is that of `tryBook(S)` on the addressed theater, whose new state is stored under
`(m, t)` while every other theater is untouched. -/
theorem C11_book_unknown_ids_or_delegate (r : InMemoryRepository) (m t : Nat)
    (S : List Seat) :
    (r.theaterAt m t = none ↔
      (mapFind r.db m = none ∨ ∃ e, mapFind r.db m = some e ∧ mapFind e.theaters t = none)) ∧
    (r.theaterAt m t = none →
      r.book m t S = .ok (false, r) ∧ (BookingManager.mk r).book m t S = .ok (false, ⟨r⟩)) ∧
    (∀ th, r.theaterAt m t = some th →
      ∃ b th1 r1, th.tryBook S = .ok (b, th1) ∧
        r.book m t S = .ok (b, r1) ∧ (BookingManager.mk r).book m t S = .ok (b, ⟨r1⟩) ∧
        r1.theaterAt m t = some th1 ∧
        ∀ m2 t2, (m2 ≠ m ∨ t2 ≠ t) → r1.theaterAt m2 t2 = r.theaterAt m2 t2) := by
  have hmgr : ∀ b r1, (BookingManager.mk r).book m t S = .ok (b, ⟨r1⟩) →
      r.book m t S = .ok (b, r1) := by
    intro b r1 h
    unfold BookingManager.book at h
    cases hb : r.book m t S with
    | error x => simp only [hb] at h; exact absurd h (by simp)
    | ok p =>
      obtain ⟨b2, r2⟩ := p
      simp only [hb, Except.ok.injEq, Prod.mk.injEq, BookingManager.mk.injEq] at h
      rw [h.1, h.2]
  refine ⟨?_, ?_, ?_⟩
  · unfold InMemoryRepository.theaterAt
    cases he : mapFind r.db m with
    | none => simp
    | some e => simp
  · intro hnone
    have hbook : (BookingManager.mk r).book m t S = .ok (false, ⟨r⟩) :=
      BookingManager.book_reject ⟨r⟩ m t S
        (by intro th hth; rw [hnone] at hth; exact absurd hth (by simp))
    exact ⟨hmgr false r hbook, hbook⟩
  · intro th hat
    cases he : mapFind r.db m with
    | none => simp [InMemoryRepository.theaterAt, he] at hat
    | some e =>
      have ht : mapFind e.theaters t = some th := by
        simpa only [InMemoryRepository.theaterAt, he] using hat
      obtain ⟨b, th1, htb, hbook⟩ := BookingManager.book_known ⟨r⟩ m t S e th he ht
      refine ⟨b, th1, _, htb, hmgr b _ hbook, hbook, ?_, ?_⟩
      · rw [InMemoryRepository.theaterAt_stored r m t e th th1 he ht, if_pos ⟨rfl, rfl⟩]
      · intro m2 t2 hne
        rw [InMemoryRepository.theaterAt_stored r m t e th th1 he ht, if_neg]
        rintro ⟨rfl, rfl⟩
        rcases hne with h1 | h1 <;> exact h1 rfl

/-- C12. Catalog freeSeats: `InMemoryRepository::freeSeats(m, t)` fails, with the
`std::out_of_range` of the failed lookup `at`, if and only if movie id `m` is unknown or
`t` is not a theater of movie `m`; otherwise it returns the `freeSeats()` of that
theater, which does not fail. -/
theorem C12_freeSeats_not_found_iff (r : InMemoryRepository) (m t : Nat) :
    ((∃ x, r.freeSeats m t = .error x) ↔
      (mapFind r.db m = none ∨ ∃ e, mapFind r.db m = some e ∧ mapFind e.theaters t = none)) ∧
    ((∃ x, r.freeSeats m t = .error x) → r.freeSeats m t = .error .out_of_range) ∧
    (∀ e th, mapFind r.db m = some e → mapFind e.theaters t = some th →
      r.freeSeats m t = th.freeSeats ∧ ∃ v, th.freeSeats = .ok v) := by
  have hknown : ∀ e th, mapFind r.db m = some e → mapFind e.theaters t = some th →
      r.freeSeats m t = th.freeSeats ∧ ∃ v, th.freeSeats = .ok v := by
    intro e th he ht
    refine ⟨?_, _, Theater.freeSeats_eq th⟩
    simp only [InMemoryRepository.freeSeats, he, ht]
  refine ⟨⟨?_, ?_⟩, ?_, hknown⟩
  · rintro ⟨x, hx⟩
    cases he : mapFind r.db m with
    | none => exact Or.inl rfl
    | some e =>
      cases ht : mapFind e.theaters t with
      | none => exact Or.inr ⟨e, rfl, ht⟩
      | some th =>
        obtain ⟨heq, v, hv⟩ := hknown e th he ht
        rw [heq, hv] at hx
        exact absurd hx (by simp)
  · rintro (he | ⟨e, he, ht⟩)
    · exact ⟨.out_of_range, by simp only [InMemoryRepository.freeSeats, he]⟩
    · exact ⟨.out_of_range, by simp only [InMemoryRepository.freeSeats, he, ht]⟩
  · rintro ⟨x, hx⟩
    cases x
    exact hx

/-- C13. Catalog theaters: `InMemoryRepository::theaters(m)` returns the empty sequence
when movie id `m` is unknown; otherwise its result lists, for a duplicate-free enumeration
of exactly the theater ids registered under `m`, the theater registered under each. -/
theorem C13_theaters_listing (r : InMemoryRepository) (m : Nat) (hwf : r.WF) :
    (mapFind r.db m = none →
      r.theaters m = [] ∧ (BookingManager.mk r).theaters m = []) ∧
    (∀ e, mapFind r.db m = some e →
      (BookingManager.mk r).theaters m = r.theaters m ∧
      r.theaters m = e.theaters.map Prod.snd ∧
      ∃ ids : List Nat, ids.Nodup ∧ ids.length = (r.theaters m).length ∧
        (∀ t, t ∈ ids ↔ ∃ th, mapFind e.theaters t = some th) ∧
        List.Forall₂ (fun t th => mapFind e.theaters t = some th) ids (r.theaters m)) := by
  refine ⟨?_, ?_⟩
  · intro he
    simp only [BookingManager.theaters, InMemoryRepository.theaters, he, and_self]
  · intro e he
    have hnd : (e.theaters.map Prod.fst).Nodup := hwf.2 (m, e) (mapFind_some_mem r.db m e he)
    have hth : r.theaters m = e.theaters.map Prod.snd := by
      simp only [InMemoryRepository.theaters, he]
    refine ⟨rfl, hth, e.theaters.map Prod.fst, hnd, ?_, ?_, ?_⟩
    · rw [hth, List.length_map, List.length_map]
    · intro t
      rw [← mapFind_isSome_iff, Option.isSome_iff_exists]
    · rw [hth]
      exact mapFind_forall₂ e.theaters hnd

/-- C13 at a concrete input: movie 1 of the seeded repository, whose listing holds the
halls 101 and 102 in some order. -/
theorem C13_theaters_listing_witness :
    InMemoryRepository.new.WF ∧
    (InMemoryRepository.new.theaters 1).Perm
      [Theater.new 101 "CinemaA-Hall1", Theater.new 102 "CinemaA-Hall2"] ∧
    InMemoryRepository.new.theaters 7 = [] ∧
    ((mapFind InMemoryRepository.new.db 1 = none →
      InMemoryRepository.new.theaters 1 = [] ∧
      (BookingManager.mk InMemoryRepository.new).theaters 1 = []) ∧
    (∀ e, mapFind InMemoryRepository.new.db 1 = some e →
      (BookingManager.mk InMemoryRepository.new).theaters 1 = InMemoryRepository.new.theaters 1 ∧
      InMemoryRepository.new.theaters 1 = e.theaters.map Prod.snd ∧
      ∃ ids : List Nat, ids.Nodup ∧ ids.length = (InMemoryRepository.new.theaters 1).length ∧
        (∀ t, t ∈ ids ↔ ∃ th, mapFind e.theaters t = some th) ∧
        List.Forall₂ (fun t th => mapFind e.theaters t = some th) ids
          (InMemoryRepository.new.theaters 1))) :=
  ⟨by decide, by decide, by decide, C13_theaters_listing InMemoryRepository.new 1 (by decide)⟩

/-- C14. Empty request rejected: a `BookSeats` request with an empty seat list is answered
with `INVALID_ARGUMENT` for every movie id and theater id; whatever `book` would do it is
not called, and the manager is unchanged. -/
theorem C14_empty_request_rejected {σ : Type}
    (book : σ → Nat → Nat → List Seat → Except Exn (Bool × σ)) (st : σ)
    (mgr : BookingManager) (m t : Nat) :
    BookingServiceImpl.BookSeatsVia book st ⟨m, t, []⟩ =
      .ok (⟨StatusCode.INVALID_ARGUMENT, "no seats provided"⟩, ⟨false⟩, st) ∧
    BookingServiceImpl.BookSeats mgr ⟨m, t, []⟩ =
      .ok (⟨StatusCode.INVALID_ARGUMENT, "no seats provided"⟩, ⟨false⟩, mgr) ∧
    ∀ m2 t2 i, ∀ res, BookingServiceImpl.BookSeats mgr ⟨m, t, []⟩ = .ok res →
      res.2.2.occupied m2 t2 i = mgr.occupied m2 t2 i := by
  refine ⟨rfl, rfl, ?_⟩
  intro m2 t2 i res h
  have h2 : BookingServiceImpl.BookSeats mgr ⟨m, t, []⟩ =
      .ok (⟨StatusCode.INVALID_ARGUMENT, "no seats provided"⟩, ⟨false⟩, mgr) := rfl
  rw [h2] at h
  injection h with h
  rw [← h]

/-- C15. Duplicate labels rejected: a `BookSeats` request in which a seat label occurs
twice is answered with `INVALID_ARGUMENT`, whatever the indices, the occupancy and the
ids; whatever `book` would do it is not called, and the manager is unchanged. -/
theorem C15_duplicate_labels_rejected {σ : Type}
    (book : σ → Nat → Nat → List Seat → Except Exn (Bool × σ)) (st : σ)
    (mgr : BookingManager) (req : BookingReq)
    (h : ¬ (req.seats.map WireSeat.label).Nodup) :
    BookingServiceImpl.BookSeatsVia book st req =
      .ok (⟨StatusCode.INVALID_ARGUMENT, "duplicate seat label in request"⟩, ⟨false⟩, st) ∧
    BookingServiceImpl.BookSeats mgr req =
      .ok (⟨StatusCode.INVALID_ARGUMENT, "duplicate seat label in request"⟩, ⟨false⟩, mgr) :=
  ⟨BookingServiceImpl.BookSeatsVia_dup book st req h,
   BookingServiceImpl.BookSeatsVia_dup BookingManager.book mgr req h⟩

/-- C15 at a concrete input: label "A3" twice, with different indices, for an unknown
theater id. -/
theorem C15_duplicate_labels_rejected_witness :
    ¬ ((BookingReq.mk 1 999 [⟨2, "A3"⟩, ⟨0, "A1"⟩, ⟨7, "A3"⟩]).seats.map WireSeat.label).Nodup ∧
    (BookingServiceImpl.BookSeatsVia BookingManager.book mgr2
        ⟨1, 999, [⟨2, "A3"⟩, ⟨0, "A1"⟩, ⟨7, "A3"⟩]⟩ =
      .ok (⟨StatusCode.INVALID_ARGUMENT, "duplicate seat label in request"⟩, ⟨false⟩, mgr2) ∧
    BookingServiceImpl.BookSeats mgr2 ⟨1, 999, [⟨2, "A3"⟩, ⟨0, "A1"⟩, ⟨7, "A3"⟩]⟩ =
      .ok (⟨StatusCode.INVALID_ARGUMENT, "duplicate seat label in request"⟩, ⟨false⟩, mgr2)) :=
  ⟨by decide, C15_duplicate_labels_rejected BookingManager.book mgr2 mgr2
    ⟨1, 999, [⟨2, "A3"⟩, ⟨0, "A1"⟩, ⟨7, "A3"⟩]⟩ (by decide)⟩

/-- C16. The code at the failing input: `BookSeats` for the unknown theater id 999 (and
for the unknown movie id 999) on the seeded repository returns `ALREADY_EXISTS` with the
message "one or more seats already booked", not `NOT_FOUND`; a real conflict on a known
theater returns the same status and reply; and so does every non-empty request without
repeated labels whose ids are unknown, leaving the manager unchanged. -/
theorem C16_unknown_ids_already_exists :
    BookingServiceImpl.BookSeats mgr0 ⟨1, 999, [⟨0, "A1"⟩]⟩ =
      .ok (⟨StatusCode.ALREADY_EXISTS, "one or more seats already booked"⟩, ⟨false⟩, mgr0) ∧
    BookingServiceImpl.BookSeats mgr0 ⟨999, 101, [⟨0, "A1"⟩]⟩ =
      .ok (⟨StatusCode.ALREADY_EXISTS, "one or more seats already booked"⟩, ⟨false⟩, mgr0) ∧
    BookingServiceImpl.BookSeats mgr2 ⟨1, 101, [⟨2, "A3"⟩]⟩ =
      .ok (⟨StatusCode.ALREADY_EXISTS, "one or more seats already booked"⟩, ⟨false⟩, mgr2) ∧
    (∀ (mgr : BookingManager) (req : BookingReq), req.seats ≠ [] →
      (req.seats.map WireSeat.label).Nodup →
      mgr.repo.theaterAt req.movie_id req.theater_id = none →
      BookingServiceImpl.BookSeats mgr req =
        .ok (⟨StatusCode.ALREADY_EXISTS, "one or more seats already booked"⟩, ⟨false⟩, mgr)) := by
  refine ⟨by decide, by decide, by decide, ?_⟩
  intro mgr req hne hnd hat
  have hbook : mgr.book req.movie_id req.theater_id (req.seats.map WireSeat.toSeat)
      = .ok (false, mgr) :=
    BookingManager.book_reject mgr _ _ _
      (by intro th hth; rw [hat] at hth; exact absurd hth (by simp))
  unfold BookingServiceImpl.BookSeats
  rw [BookingServiceImpl.BookSeatsVia_forward BookingManager.book mgr req hnd hne, hbook]
  rfl

/-- C17. Reserve RPC outcome: for a non-empty request without repeated labels, with wire
indices below 20, on a known movie/theater, `BookSeats` returns `OK` with `success = true`
exactly when all requested seats were free, and they are occupied afterwards; otherwise
it returns `ALREADY_EXISTS` with `success = false` and the manager is unchanged. -/
theorem C17_BookSeats_outcome (mgr : BookingManager) (req : BookingReq) (th : Theater)
    (hne : req.seats ≠ []) (hnd : (req.seats.map WireSeat.label).Nodup)
    (hin : ∀ s ∈ req.seats, s.index < 20)
    (hat : mgr.repo.theaterAt req.movie_id req.theater_id = some th) :
    ((∀ s ∈ req.seats, th.occupied s.index = false) →
      ∃ mgr1, BookingServiceImpl.BookSeats mgr req = .ok (Status.OK, ⟨true⟩, mgr1) ∧
        ∀ s ∈ req.seats, mgr1.occupied req.movie_id req.theater_id s.index = true) ∧
    ((¬ ∀ s ∈ req.seats, th.occupied s.index = false) →
      BookingServiceImpl.BookSeats mgr req =
        .ok (⟨StatusCode.ALREADY_EXISTS, "one or more seats already booked"⟩, ⟨false⟩, mgr)) ∧
    ((∃ rep mgr1, BookingServiceImpl.BookSeats mgr req = .ok (Status.OK, rep, mgr1)) ↔
      ∀ s ∈ req.seats, th.occupied s.index = false) := by
  have hidx : ∀ s ∈ req.seats, s.toSeat.index = s.index := by
    intro s hs
    exact Nat.mod_eq_of_lt (Nat.lt_trans (hin s hs) (by decide))
  have hfwd := BookingServiceImpl.BookSeatsVia_forward BookingManager.book mgr req hnd hne
  have hyes : (∀ s ∈ req.seats, th.occupied s.index = false) →
      ∃ mgr1, BookingServiceImpl.BookSeats mgr req = .ok (Status.OK, ⟨true⟩, mgr1) ∧
        ∀ s ∈ req.seats, mgr1.occupied req.movie_id req.theater_id s.index = true := by
    intro hfree
    have hall : ∀ r ∈ req.seats.map WireSeat.toSeat,
        r.index < kCapacity ∧ th.occupied r.index = false := by
      intro r hr
      obtain ⟨s, hs, rfl⟩ := List.mem_map.1 hr
      rw [hidx s hs]
      exact ⟨hin s hs, hfree s hs⟩
    obtain ⟨mgr1, th1, hbook, -, hat1, -, hocc⟩ :=
      BookingManager.book_accept mgr _ _ _ th hat hall
    refine ⟨mgr1, ?_, ?_⟩
    · unfold BookingServiceImpl.BookSeats
      rw [hfwd, hbook]
      rfl
    · intro s hs
      rw [BookingManager.occupied_eq, hat1]
      show th1.occupied s.index = true
      rw [hocc s.index]
      have hany : (req.seats.map WireSeat.toSeat).any (fun r => r.index == s.index) = true :=
        List.any_eq_true.2 ⟨s.toSeat, List.mem_map.2 ⟨s, hs, rfl⟩, by simp [hidx s hs]⟩
      rw [hany, Bool.or_true]
  have hno : (¬ ∀ s ∈ req.seats, th.occupied s.index = false) →
      BookingServiceImpl.BookSeats mgr req =
        .ok (⟨StatusCode.ALREADY_EXISTS, "one or more seats already booked"⟩, ⟨false⟩, mgr) := by
    intro hn
    push_neg at hn
    obtain ⟨s, hs, hocc⟩ := hn
    have hbook : mgr.book req.movie_id req.theater_id (req.seats.map WireSeat.toSeat)
        = .ok (false, mgr) := by
      apply BookingManager.book_reject
      intro th2 hth2
      rw [hat] at hth2
      injection hth2 with hth2
      subst hth2
      refine ⟨s.toSeat, List.mem_map.2 ⟨s, hs, rfl⟩, Or.inr ?_⟩
      rw [hidx s hs]
      cases hb : th.occupied s.index
      · exact absurd hb hocc
      · rfl
    unfold BookingServiceImpl.BookSeats
    rw [hfwd, hbook]
    rfl
  refine ⟨hyes, hno, ⟨?_, ?_⟩⟩
  · rintro ⟨rep, mgr1, h⟩
    by_contra hn
    rw [hno hn] at h
    simp only [Except.ok.injEq, Prod.mk.injEq] at h
    exact absurd h.1 (by decide)
  · intro hfree
    obtain ⟨mgr1, h, -⟩ := hyes hfree
    exact ⟨⟨true⟩, mgr1, h⟩

/-- C17 at a concrete input: seats 2 and 4 of theater 101 requested when seat 2 is
taken. -/
theorem C17_BookSeats_outcome_witness :
    (reqA3A5.seats ≠ [] ∧ (reqA3A5.seats.map WireSeat.label).Nodup ∧
      (∀ s ∈ reqA3A5.seats, s.index < 20) ∧
      mgr2.repo.theaterAt reqA3A5.movie_id reqA3A5.theater_id = some hall2) ∧
    (((∀ s ∈ reqA3A5.seats, hall2.occupied s.index = false) →
      ∃ mgr1, BookingServiceImpl.BookSeats mgr2 reqA3A5 = .ok (Status.OK, ⟨true⟩, mgr1) ∧
        ∀ s ∈ reqA3A5.seats,
          mgr1.occupied reqA3A5.movie_id reqA3A5.theater_id s.index = true) ∧
    ((¬ ∀ s ∈ reqA3A5.seats, hall2.occupied s.index = false) →
      BookingServiceImpl.BookSeats mgr2 reqA3A5 =
        .ok (⟨StatusCode.ALREADY_EXISTS, "one or more seats already booked"⟩, ⟨false⟩, mgr2)) ∧
    ((∃ rep mgr1, BookingServiceImpl.BookSeats mgr2 reqA3A5 = .ok (Status.OK, rep, mgr1)) ↔
      ∀ s ∈ reqA3A5.seats, hall2.occupied s.index = false)) :=
  ⟨⟨by decide, by decide, by decide, by decide⟩,
   C17_BookSeats_outcome mgr2 reqA3A5 hall2 (by decide) (by decide) (by decide) (by decide)⟩

/-- C18 as stated fails: a `BookSeats` request for wire index 25 on the seeded repository
is not answered with `INVALID_ARGUMENT` but with `ALREADY_EXISTS`, and it does reach
`book`: with a `book` that throws, the handler throws. -/
theorem C18_counterexample_out_of_range_status :
    BookingServiceImpl.BookSeats mgr0 ⟨1, 101, [⟨25, "A26"⟩]⟩ =
      .ok (⟨StatusCode.ALREADY_EXISTS, "one or more seats already booked"⟩, ⟨false⟩, mgr0) ∧
    (¬ ∃ msg rep mgr1, BookingServiceImpl.BookSeats mgr0 ⟨1, 101, [⟨25, "A26"⟩]⟩ =
      .ok (⟨StatusCode.INVALID_ARGUMENT, msg⟩, rep, mgr1)) ∧
    BookingServiceImpl.BookSeatsVia (fun (_ : Unit) _ _ _ => .error .out_of_range) ()
      ⟨1, 101, [⟨25, "A26"⟩]⟩ = .error .out_of_range := by
  have h : BookingServiceImpl.BookSeats mgr0 ⟨1, 101, [⟨25, "A26"⟩]⟩ =
      .ok (⟨StatusCode.ALREADY_EXISTS, "one or more seats already booked"⟩, ⟨false⟩, mgr0) := by
    decide
  refine ⟨h, ?_, by decide⟩
  rintro ⟨msg, rep, mgr1, h2⟩
  rw [h] at h2
  simp only [Except.ok.injEq, Prod.mk.injEq, Status.mk.injEq] at h2
  exact absurd h2.1.1 (by decide)

/-- C18 (amended). A `BookSeats` request containing a seat whose wire index, reduced to 8
bits, is at least the capacity 20 is never accepted: if a label repeats it is answered
with `INVALID_ARGUMENT`, and otherwise it is handed to `book`, which returns `false`, and
is answered with `ALREADY_EXISTS` and `success = false`; in both cases the manager is
unchanged, so no seat becomes occupied. -/
theorem C18_out_of_range_conflict_outcome (mgr : BookingManager) (req : BookingReq)
    (h : ∃ s ∈ req.seats, 20 ≤ s.index % 256) :
    ((¬ (req.seats.map WireSeat.label).Nodup) →
      BookingServiceImpl.BookSeats mgr req =
        .ok (⟨StatusCode.INVALID_ARGUMENT, "duplicate seat label in request"⟩, ⟨false⟩, mgr)) ∧
    ((req.seats.map WireSeat.label).Nodup →
      mgr.book req.movie_id req.theater_id (req.seats.map WireSeat.toSeat) = .ok (false, mgr) ∧
      BookingServiceImpl.BookSeats mgr req =
        .ok (⟨StatusCode.ALREADY_EXISTS, "one or more seats already booked"⟩, ⟨false⟩, mgr)) := by
  refine ⟨BookingServiceImpl.BookSeatsVia_dup BookingManager.book mgr req, ?_⟩
  intro hnd
  obtain ⟨s, hs, hge⟩ := h
  have hne : req.seats ≠ [] := List.ne_nil_of_mem hs
  have hbook : mgr.book req.movie_id req.theater_id (req.seats.map WireSeat.toSeat)
      = .ok (false, mgr) :=
    BookingManager.book_reject mgr _ _ _
      (fun _ _ => ⟨s.toSeat, List.mem_map.2 ⟨s, hs, rfl⟩, Or.inl hge⟩)
  refine ⟨hbook, ?_⟩
  unfold BookingServiceImpl.BookSeats
  rw [BookingServiceImpl.BookSeatsVia_forward BookingManager.book mgr req hnd hne, hbook]
  rfl

/-- C18 (amended) at a concrete input: wire indices 4 and 25 for theater 101. -/
theorem C18_out_of_range_conflict_outcome_witness :
    (∃ s ∈ (BookingReq.mk 1 101 [⟨4, "A5"⟩, ⟨25, "A26"⟩]).seats, 20 ≤ s.index % 256) ∧
    (((¬ ((BookingReq.mk 1 101 [⟨4, "A5"⟩, ⟨25, "A26"⟩]).seats.map WireSeat.label).Nodup) →
      BookingServiceImpl.BookSeats mgr0 ⟨1, 101, [⟨4, "A5"⟩, ⟨25, "A26"⟩]⟩ =
        .ok (⟨StatusCode.INVALID_ARGUMENT, "duplicate seat label in request"⟩, ⟨false⟩, mgr0)) ∧
    (((BookingReq.mk 1 101 [⟨4, "A5"⟩, ⟨25, "A26"⟩]).seats.map WireSeat.label).Nodup →
      mgr0.book (BookingReq.mk 1 101 [⟨4, "A5"⟩, ⟨25, "A26"⟩]).movie_id
          (BookingReq.mk 1 101 [⟨4, "A5"⟩, ⟨25, "A26"⟩]).theater_id
          ((BookingReq.mk 1 101 [⟨4, "A5"⟩, ⟨25, "A26"⟩]).seats.map WireSeat.toSeat)
        = .ok (false, mgr0) ∧
      BookingServiceImpl.BookSeats mgr0 ⟨1, 101, [⟨4, "A5"⟩, ⟨25, "A26"⟩]⟩ =
        .ok (⟨StatusCode.ALREADY_EXISTS, "one or more seats already booked"⟩, ⟨false⟩, mgr0))) :=
  ⟨by decide, C18_out_of_range_conflict_outcome mgr0 ⟨1, 101, [⟨4, "A5"⟩, ⟨25, "A26"⟩]⟩ (by decide)⟩

/-- C19. ListTheaters RPC: in every state that `book` calls can reach from the seeded
repository, `ListTheaters` returns `NOT_FOUND` for an unknown movie id (every id but 1 and
2), and for a known movie id returns `OK` with one `{id, name}` entry per entry of the
movie's theater map, whose keys are pairwise different and equal to the theaters' ids:
the halls 101 and 102, in some order, for movie 1 and the hall 201 for movie 2. -/
theorem C19_ListTheaters_outcome (reqs : List (Nat × Nat × List Seat)) (mgr : BookingManager)
    (h : mgr0.bookAll reqs = .ok mgr) (m : Nat) :
    (mapFind mgr.repo.db m = none ↔ (m ≠ 1 ∧ m ≠ 2)) ∧
    (mapFind mgr.repo.db m = none →
      BookingServiceImpl.ListTheaters mgr m =
        (⟨StatusCode.NOT_FOUND, "movie id not found"⟩, [])) ∧
    (∀ e, mapFind mgr.repo.db m = some e →
      BookingServiceImpl.ListTheaters mgr m =
        (Status.OK, e.theaters.map (fun q => (⟨q.2.id, q.2.name⟩ : WireTheater))) ∧
      (e.theaters.map Prod.fst).Nodup ∧ ∀ q ∈ e.theaters, q.2.id = q.1) ∧
    (∃ out, BookingServiceImpl.ListTheaters mgr m =
        (if m = 1 ∨ m = 2 then Status.OK
          else ⟨StatusCode.NOT_FOUND, "movie id not found"⟩, out) ∧
      out.Perm (if m = 1 then [⟨101, "CinemaA-Hall1"⟩, ⟨102, "CinemaA-Hall2"⟩]
        else if m = 2 then [⟨201, "CinemaB-Hall1"⟩] else [])) := by
  have hshape : mgr.repo.shape = [(1, [(101, 101, "CinemaA-Hall1"), (102, 102, "CinemaA-Hall2")]),
      (2, [(201, 201, "CinemaB-Hall1")])] := by
    rw [BookingManager.bookAll_shape reqs mgr0 mgr h]
    decide
  have hfind : (mapFind mgr.repo.db m).map
        (fun e : Entry => e.theaters.map (fun q : Nat × Theater => (q.1, q.2.id, q.2.name)))
      = if 1 = m then some [(101, 101, "CinemaA-Hall1"), (102, 102, "CinemaA-Hall2")]
        else if 2 = m then some [(201, 201, "CinemaB-Hall1")] else none := by
    rw [← mapFind_map, ← InMemoryRepository.shape, hshape]
    rfl
  have hknown : ∀ (e : Entry) (L : List (Nat × Nat × String)),
      mapFind mgr.repo.db m = some e →
      e.theaters.map (fun q : Nat × Theater => (q.1, q.2.id, q.2.name)) = L →
      L ≠ [] → (L.map Prod.fst).Nodup → (∀ x ∈ L, x.2.1 = x.1) →
      BookingServiceImpl.ListTheaters mgr m =
        (Status.OK, e.theaters.map (fun q => (⟨q.2.id, q.2.name⟩ : WireTheater))) ∧
      (e.theaters.map Prod.fst).Nodup ∧ (∀ q ∈ e.theaters, q.2.id = q.1) ∧
      e.theaters.map (fun q => (⟨q.2.id, q.2.name⟩ : WireTheater))
        = L.map (fun x => (⟨x.2.1, x.2.2⟩ : WireTheater)) := by
    intro e L he hL hne hnd hid
    have hne2 : e.theaters ≠ [] := by
      intro hnil
      rw [hnil] at hL
      exact hne hL.symm
    refine ⟨BookingServiceImpl.ListTheaters_known mgr m e he hne2, ?_, ?_, ?_⟩
    · rw [← hL, List.map_map] at hnd
      exact hnd
    · intro q hq
      have := hid (q.1, q.2.id, q.2.name) (by rw [← hL]; exact List.mem_map.2 ⟨q, hq, rfl⟩)
      exact this
    · rw [← hL, List.map_map]
      rfl
  by_cases h1 : m = 1
  · subst h1
    simp only [if_true] at hfind
    cases he : mapFind mgr.repo.db 1 with
    | none => rw [he] at hfind; exact absurd hfind (by simp)
    | some e =>
      rw [he, Option.map_some', Option.some.injEq] at hfind
      obtain ⟨hres, hnd, hid, hlist⟩ := hknown e _ he hfind (by decide) (by decide) (by decide)
      refine ⟨by simp, by simp, ?_, ?_⟩
      · intro e2 he2
        injection he2 with he2
        subst he2
        exact ⟨hres, hnd, hid⟩
      · refine ⟨e.theaters.map (fun q => (⟨q.2.id, q.2.name⟩ : WireTheater)), ?_, ?_⟩
        · rw [hres]
          rfl
        · rw [hlist]
          exact List.Perm.refl _
  · by_cases h2 : m = 2
    · subst h2
      simp only [show ¬ (1 = 2) by decide, if_false, if_true] at hfind
      cases he : mapFind mgr.repo.db 2 with
      | none => rw [he] at hfind; exact absurd hfind (by simp)
      | some e =>
        rw [he, Option.map_some', Option.some.injEq] at hfind
        obtain ⟨hres, hnd, hid, hlist⟩ := hknown e _ he hfind (by decide) (by decide) (by decide)
        refine ⟨by simp, by simp, ?_, ?_⟩
        · intro e2 he2
          injection he2 with he2
          subst he2
          exact ⟨hres, hnd, hid⟩
        · refine ⟨e.theaters.map (fun q => (⟨q.2.id, q.2.name⟩ : WireTheater)), ?_, ?_⟩
          · rw [hres]
            rfl
          · rw [hlist]
            exact List.Perm.refl _
    · have h1b : ¬ 1 = m := fun hh => h1 hh.symm
      have h2b : ¬ 2 = m := fun hh => h2 hh.symm
      simp only [h1b, h2b, if_false, Option.map_eq_none'] at hfind
      refine ⟨by simp [hfind, h1, h2], fun _ => BookingServiceImpl.ListTheaters_unknown mgr m hfind,
        ?_, ?_⟩
      · intro e he
        rw [hfind] at he
        exact absurd he (by simp)
      · refine ⟨[], ?_, ?_⟩
        · rw [if_neg (fun hc => hc.elim h1 h2)]
          exact BookingServiceImpl.ListTheaters_unknown mgr m hfind
        · rw [if_neg h1, if_neg h2]

/-- C19 at a concrete input: movie 1 after seat 2 of theater 101 was booked; the reply
is `OK` with the halls 101 and 102 in some order. -/
theorem C19_ListTheaters_outcome_witness :
    mgr0.bookAll [(1, 101, [⟨2, "A3"⟩])] = .ok mgr2 ∧
    ∃ out, BookingServiceImpl.ListTheaters mgr2 1 =
        (if 1 = 1 ∨ 1 = 2 then Status.OK
          else ⟨StatusCode.NOT_FOUND, "movie id not found"⟩, out) ∧
      out.Perm (if 1 = 1 then [⟨101, "CinemaA-Hall1"⟩, ⟨102, "CinemaA-Hall2"⟩]
        else if 1 = 2 then [⟨201, "CinemaB-Hall1"⟩] else []) :=
  ⟨by decide, (C19_ListTheaters_outcome [(1, 101, [⟨2, "A3"⟩])] mgr2 (by decide) 1).2.2.2⟩

/-- C20. The code at the failing input: `ListFreeSeats` for the unknown movie id 999 (and
for the unknown theater id 999) on the seeded repository raises `std::out_of_range` and
returns no status, as it does for all unknown ids; for known ids it returns `NOT_FOUND`
when no seat is free and otherwise `OK` with the free seats in ascending index order. -/
theorem C20_ListFreeSeats_unknown_ids_raise :
    BookingServiceImpl.ListFreeSeats mgr0 999 101 = .error .out_of_range ∧
    BookingServiceImpl.ListFreeSeats mgr0 1 999 = .error .out_of_range ∧
    (∀ (mgr : BookingManager) (m t : Nat), mgr.repo.theaterAt m t = none →
      BookingServiceImpl.ListFreeSeats mgr m t = .error .out_of_range) ∧
    (∀ (mgr : BookingManager) (m t : Nat) (th : Theater), mgr.repo.theaterAt m t = some th →
      ∃ v, th.freeSeats = .ok v ∧
        v = ((List.range 20).filter (fun i => !th.occupied i)).map Seat.fromIndex ∧
        BookingServiceImpl.ListFreeSeats mgr m t =
          if v.isEmpty then .ok (⟨StatusCode.NOT_FOUND, "movie/theater id not found"⟩, [])
          else .ok (Status.OK, v.map (fun s => (⟨s.index, s.label⟩ : WireSeat)))) := by
  refine ⟨by decide, by decide, ?_, ?_⟩
  · intro mgr m t hat
    unfold BookingServiceImpl.ListFreeSeats BookingManager.freeSeats InMemoryRepository.freeSeats
    unfold InMemoryRepository.theaterAt at hat
    cases he : mapFind mgr.repo.db m with
    | none => rfl
    | some e =>
      have ht : mapFind e.theaters t = none := by simpa only [he] using hat
      simp only [ht]
  · intro mgr m t th hat
    refine ⟨_, Theater.freeSeats_eq th, rfl, ?_⟩
    unfold BookingServiceImpl.ListFreeSeats BookingManager.freeSeats InMemoryRepository.freeSeats
    unfold InMemoryRepository.theaterAt at hat
    cases he : mapFind mgr.repo.db m with
    | none => rw [he] at hat; exact absurd hat (by simp)
    | some e =>
      have ht : mapFind e.theaters t = some th := by simpa only [he] using hat
      simp only [ht, Theater.freeSeats_eq th]

/-- C21. Independence of disjoint requests: if the seats of `S1` and of `S2` are all in
range and free and no index occurs in both lists, then `tryBook(S1)` followed by
`tryBook(S2)` and `tryBook(S2)` followed by `tryBook(S1)` all return `true`, both orders
end in the same theater state, in which the seats of `S1` and `S2` are occupied and every
other seat is as before. -/
theorem C21_disjoint_requests_commute (th : Theater) (S1 S2 : List Seat)
    (h1 : ∀ s ∈ S1, s.index < 20 ∧ th.occupied s.index = false)
    (h2 : ∀ s ∈ S2, s.index < 20 ∧ th.occupied s.index = false)
    (hdis : ∀ a ∈ S1, ∀ b ∈ S2, a.index ≠ b.index) :
    ∃ ta tb tfin, th.tryBook S1 = .ok (true, ta) ∧ ta.tryBook S2 = .ok (true, tfin) ∧
      th.tryBook S2 = .ok (true, tb) ∧ tb.tryBook S1 = .ok (true, tfin) ∧
      th.tryBookAll [S1, S2] = .ok ([true, true], tfin) ∧
      th.tryBookAll [S2, S1] = .ok ([true, true], tfin) ∧
      (∀ s ∈ S1 ++ S2, tfin.occupied s.index = true) ∧
      (∀ i, (∀ s ∈ S1 ++ S2, s.index ≠ i) → tfin.occupied i = th.occupied i) := by
  obtain ⟨ta, hta, hida, hna, hoa⟩ := Theater.tryBook_accept th S1 h1
  obtain ⟨tb, htb, hidb, hnb, hob⟩ := Theater.tryBook_accept th S2 h2
  have h2a : ∀ s ∈ S2, s.index < kCapacity ∧ ta.occupied s.index = false := by
    intro s hs
    refine ⟨(h2 s hs).1, ?_⟩
    rw [hoa s.index, (h2 s hs).2, Bool.false_or, any_index_eq_false]
    exact fun a ha => hdis a ha s hs
  have h1b : ∀ s ∈ S1, s.index < kCapacity ∧ tb.occupied s.index = false := by
    intro s hs
    refine ⟨(h1 s hs).1, ?_⟩
    rw [hob s.index, (h1 s hs).2, Bool.false_or, any_index_eq_false]
    exact fun b hb => (hdis s hs b hb).symm
  obtain ⟨tab, htab, hidab, hnab, hoab⟩ := Theater.tryBook_accept ta S2 h2a
  obtain ⟨tba, htba, hidba, hnba, hoba⟩ := Theater.tryBook_accept tb S1 h1b
  have heq : tba = tab := by
    apply Theater.ext_occupied
    · rw [hidba, hidb, hidab, hida]
    · rw [hnba, hnb, hnab, hna]
    · intro i
      rw [hoba i, hob i, hoab i, hoa i, Bool.or_assoc, Bool.or_assoc,
        Bool.or_comm (S2.any _)]
  rw [heq] at htba
  refine ⟨ta, tb, tab, hta, htab, htb, htba, ?_, ?_, ?_, ?_⟩
  · simp only [Theater.tryBookAll, hta, htab]
  · simp only [Theater.tryBookAll, htb, htba]
  · intro s hs
    rw [hoab s.index, hoa s.index]
    rcases List.mem_append.1 hs with hs1 | hs2
    · rw [(any_index_eq_true S1 s.index).2 ⟨s, hs1, rfl⟩, Bool.or_true, Bool.true_or]
    · rw [(any_index_eq_true S2 s.index).2 ⟨s, hs2, rfl⟩, Bool.or_true]
  · intro i hi
    rw [hoab i, hoa i,
      (any_index_eq_false S1 i).2 (fun s hs => hi s (List.mem_append_left _ hs)),
      (any_index_eq_false S2 i).2 (fun s hs => hi s (List.mem_append_right _ hs)),
      Bool.or_false, Bool.or_false]

/-- C21 at a concrete input: Scenario D, seats 0 and 5 of a fresh hall. -/
theorem C21_disjoint_requests_commute_witness :
    ∃ ta tb tfin, hall0.tryBook [⟨0, "A1"⟩] = .ok (true, ta) ∧
      ta.tryBook [⟨5, "A6"⟩] = .ok (true, tfin) ∧
      hall0.tryBook [⟨5, "A6"⟩] = .ok (true, tb) ∧ tb.tryBook [⟨0, "A1"⟩] = .ok (true, tfin) ∧
      hall0.tryBookAll [[⟨0, "A1"⟩], [⟨5, "A6"⟩]] = .ok ([true, true], tfin) ∧
      hall0.tryBookAll [[⟨5, "A6"⟩], [⟨0, "A1"⟩]] = .ok ([true, true], tfin) ∧
      (∀ s ∈ [(⟨0, "A1"⟩ : Seat)] ++ [⟨5, "A6"⟩], tfin.occupied s.index = true) ∧
      (∀ i, (∀ s ∈ [(⟨0, "A1"⟩ : Seat)] ++ [⟨5, "A6"⟩], s.index ≠ i) →
        tfin.occupied i = hall0.occupied i) :=
  C21_disjoint_requests_commute hall0 [⟨0, "A1"⟩] [⟨5, "A6"⟩]
    (by decide) (by decide) (by decide)

/-- C23. Seat identity: `a == b` holds if and only if the indices are equal; seats with
equal index and different labels are equal, seats with equal labels and different indices
are not. -/
theorem C23_seat_equality_by_index (a b : Seat) :
    (Seat.eq a b = true ↔ a.index = b.index) ∧
    (∀ (i : Nat) (l1 l2 : String), Seat.eq ⟨i, l1⟩ ⟨i, l2⟩ = true) ∧
    (∀ (i j : Nat) (l : String), i ≠ j → Seat.eq ⟨i, l⟩ ⟨j, l⟩ = false) ∧
    Seat.eq ⟨0, "A1"⟩ ⟨0, "Z99"⟩ = true ∧ Seat.eq ⟨0, "A1"⟩ ⟨1, "A1"⟩ = false := by
  refine ⟨?_, ?_, ?_, by decide, by decide⟩
  · simp [Seat.eq]
  · intro i l1 l2
    simp [Seat.eq]
  · intro i j l hij
    simp [Seat.eq, hij]

set_option maxRecDepth 100000 in
/-- C24. Seat label derivation: `Seat::fromIndex(i)` has index `i` and the label "A"
followed by `std::to_string(i + 1)`; for every 8-bit index that is the decimal
representation of `i + 1`, with no wrap-around at 255 (0 gives "A1", 5 gives "A6", 19
gives "A20", 255 gives "A256"). -/
theorem C24_label_derivation :
    (∀ i, (Seat.fromIndex i).index = i ∧ (Seat.fromIndex i).label = "A" ++ toString (i + 1)) ∧
    (∀ i < 256, (Seat.fromIndex i).label = "A" ++ decimal (i + 1)) ∧
    Seat.fromIndex 0 = ⟨0, "A1"⟩ ∧ Seat.fromIndex 5 = ⟨5, "A6"⟩ ∧
    Seat.fromIndex 19 = ⟨19, "A20"⟩ ∧ Seat.fromIndex 255 = ⟨255, "A256"⟩ :=
  ⟨fun _ => ⟨rfl, rfl⟩, by decide, by decide, by decide, by decide, by decide⟩

/-- C25. Facade pass-through: on every implementation of `IBookingRepository` the four
member functions of `BookingManager` return what the repository operation returns, its
failure and its new state included; for the in-memory repository the manager is that
pass-through, its only state being the repository. -/
theorem C25_manager_pass_through {ε σ : Type} (I : IBookingRepository ε σ) (repo : σ)
    (mgr : BookingManager) (m t : Nat) (S : List Seat) :
    BookingManager.moviesVia I repo = I.movies repo ∧
    BookingManager.theatersVia I repo m = I.theaters repo m ∧
    BookingManager.freeSeatsVia I repo m t = I.freeSeats repo m t ∧
    BookingManager.bookVia I repo m t S = I.book repo m t S ∧
    Except.ok mgr.movies = BookingManager.moviesVia InMemoryRepository.impl mgr.repo ∧
    Except.ok (mgr.theaters m) = BookingManager.theatersVia InMemoryRepository.impl mgr.repo m ∧
    mgr.freeSeats m t = BookingManager.freeSeatsVia InMemoryRepository.impl mgr.repo m t ∧
    mgr.book m t S =
      (match BookingManager.bookVia InMemoryRepository.impl mgr.repo m t S with
        | .error x => .error x
        | .ok (b, r) => .ok (b, ⟨r⟩)) ∧
    (∀ b mgr1, mgr.book m t S = .ok (b, mgr1) ↔ mgr.repo.book m t S = .ok (b, mgr1.repo)) ∧
    (∀ x, mgr.book m t S = .error x ↔ mgr.repo.book m t S = .error x) := by
  refine ⟨rfl, rfl, rfl, rfl, rfl, rfl, rfl, rfl, ?_, ?_⟩
  · intro b mgr1
    unfold BookingManager.book
    cases hb : mgr.repo.book m t S with
    | error x => simp
    | ok p =>
      obtain ⟨b2, r2⟩ := p
      obtain ⟨r1⟩ := mgr1
      simp
  · intro x
    unfold BookingManager.book
    cases hb : mgr.repo.book m t S with
    | error y => simp
    | ok p =>
      obtain ⟨b2, r2⟩ := p
      simp

/-- C26. The code at the failing input: the constructor of the in-memory repository
leaves two movies, Interstellar and Inception in some order, and three theaters, not three
and four. -/
theorem C26_seed_two_movies_three_theaters :
    InMemoryRepository.new.movies.Perm [⟨1, "Interstellar", ""⟩, ⟨2, "Inception", ""⟩] ∧
    InMemoryRepository.new.movies.length = 2 ∧
    ((InMemoryRepository.new.movies.map
      (fun mv => (InMemoryRepository.new.theaters mv.id).length)).sum = 3) ∧
    (InMemoryRepository.new.db.map (fun p => p.2.theaters.length)).sum = 3 ∧
    (BookingManager.mk InMemoryRepository.new).movies.length ≠ 3 := by
  decide

/-- C27. Theater ownership in the seeded catalog: in every state that `book` calls can
reach from the seeded repository the known pairs are movie 1 with theaters 101 and 102 and
movie 2 with theater 201, so every theater id is under exactly one movie; each stored
theater's id equals its key; and a theater id paired with another movie's id, such as
movie 2 with theater 101, is unknown to `book` and `freeSeats`. -/
theorem C27_theater_ownership (reqs : List (Nat × Nat × List Seat)) (mgr : BookingManager)
    (h : mgr0.bookAll reqs = .ok mgr) :
    (∀ m t, (∃ th, mgr.repo.theaterAt m t = some th) ↔
      ((m = 1 ∧ (t = 101 ∨ t = 102)) ∨ (m = 2 ∧ t = 201))) ∧
    (∀ m1 m2 t th1 th2, mgr.repo.theaterAt m1 t = some th1 →
      mgr.repo.theaterAt m2 t = some th2 → m1 = m2) ∧
    (∀ m t th, mgr.repo.theaterAt m t = some th → th.id = t) ∧
    (∀ m t S, mgr.repo.theaterAt m t = none →
      mgr.book m t S = .ok (false, mgr) ∧ mgr.freeSeats m t = .error .out_of_range) ∧
    (∀ S, mgr.book 2 101 S = .ok (false, mgr)) ∧
    mgr.freeSeats 2 101 = .error .out_of_range := by
  have hshape : mgr.repo.shape = [(1, [(101, 101, "CinemaA-Hall1"), (102, 102, "CinemaA-Hall2")]),
      (2, [(201, 201, "CinemaB-Hall1")])] := by
    rw [BookingManager.bookAll_shape reqs mgr0 mgr h]
    decide
  have hat : ∀ m t th, mgr.repo.theaterAt m t = some th →
      th.id = t ∧ ((m = 1 ∧ (t = 101 ∨ t = 102)) ∨ (m = 2 ∧ t = 201)) := by
    intro m t th hth
    have hs := InMemoryRepository.theaterAt_shape mgr.repo m t
    rw [hth, hshape, Option.map_some', eq_comm, shapeAt_seed] at hs
    rcases hs with ⟨rfl, rfl, hx⟩ | ⟨rfl, rfl, hx⟩ | ⟨rfl, rfl, hx⟩
    · exact ⟨(Prod.mk.inj hx).1, Or.inl ⟨rfl, Or.inl rfl⟩⟩
    · exact ⟨(Prod.mk.inj hx).1, Or.inl ⟨rfl, Or.inr rfl⟩⟩
    · exact ⟨(Prod.mk.inj hx).1, Or.inr ⟨rfl, rfl⟩⟩
  have hknown : ∀ m t, ((m = 1 ∧ (t = 101 ∨ t = 102)) ∨ (m = 2 ∧ t = 201)) →
      ∃ th, mgr.repo.theaterAt m t = some th := by
    intro m t hmt
    cases hth : mgr.repo.theaterAt m t with
    | some th => exact ⟨th, rfl⟩
    | none =>
      have hs := InMemoryRepository.theaterAt_shape mgr.repo m t
      rw [hth, hshape, Option.map_none', eq_comm] at hs
      rcases hmt with ⟨rfl, rfl | rfl⟩ | ⟨rfl, rfl⟩
      · exact absurd hs (by decide)
      · exact absurd hs (by decide)
      · exact absurd hs (by decide)
  have hunknown : ∀ m t S, mgr.repo.theaterAt m t = none →
      mgr.book m t S = .ok (false, mgr) ∧ mgr.freeSeats m t = .error .out_of_range := by
    intro m t S hnone
    exact ⟨BookingManager.book_reject mgr m t S
        (by intro th hth; rw [hnone] at hth; exact absurd hth (by simp)),
      BookingManager.freeSeats_unknown mgr m t hnone⟩
  have h2101 : mgr.repo.theaterAt 2 101 = none := by
    cases hth : mgr.repo.theaterAt 2 101 with
    | none => rfl
    | some th =>
      rcases (hat 2 101 th hth).2 with ⟨h1, -⟩ | ⟨-, h2⟩
      · exact absurd h1 (by decide)
      · exact absurd h2 (by decide)
  refine ⟨?_, ?_, fun m t th hth => (hat m t th hth).1, hunknown,
    fun S => (hunknown 2 101 S h2101).1, (hunknown 2 101 [] h2101).2⟩
  · intro m t
    exact ⟨fun ⟨th, hth⟩ => (hat m t th hth).2, hknown m t⟩
  · intro m1 m2 t th1 th2 hm1 hm2
    rcases (hat m1 t th1 hm1).2 with ⟨rfl, ht1⟩ | ⟨rfl, rfl⟩
    · rcases (hat m2 t th2 hm2).2 with ⟨rfl, -⟩ | ⟨-, rfl⟩
      · rfl
      · rcases ht1 with h | h <;> exact absurd h (by decide)
    · rcases (hat m2 201 th2 hm2).2 with ⟨-, h | h⟩ | ⟨rfl, -⟩
      · exact absurd h (by decide)
      · exact absurd h (by decide)
      · rfl

/-- C27 at a concrete input: the catalog after seat 2 of theater 101 was booked. -/
theorem C27_theater_ownership_witness :
    mgr0.bookAll [(1, 101, [⟨2, "A3"⟩])] = .ok mgr2 ∧
    (∀ S, mgr2.book 2 101 S = .ok (false, mgr2)) ∧
    mgr2.freeSeats 2 101 = .error .out_of_range :=
  ⟨by decide, (C27_theater_ownership [(1, 101, [⟨2, "A3"⟩])] mgr2 (by decide)).2.2.2.2⟩

/-- C28. Free-seat count after a booking: if `book(m, t, S)` returns `true`, the length of
`freeSeats(m, t)` afterwards is its length before minus the number of distinct indices in
`S` (minus 1 for a single seat); if it returns `false`, nothing changed and `freeSeats`
gives the same answer. -/
theorem C28_free_seat_count (mgr mgr1 : BookingManager) (m t : Nat) (S : List Seat)
    (b : Bool) (h : mgr.book m t S = .ok (b, mgr1)) :
    (b = false → mgr1 = mgr ∧ mgr1.freeSeats m t = mgr.freeSeats m t) ∧
    (b = true → ∃ v v1, mgr.freeSeats m t = .ok v ∧ mgr1.freeSeats m t = .ok v1 ∧
      v1.length + (S.map Seat.index).dedup.length = v.length ∧
      v1.length = v.length - (S.map Seat.index).dedup.length ∧
      (∀ s, S = [s] → v1.length = v.length - 1)) := by
  rcases BookingManager.book_cases mgr m t S with ⟨-, hb⟩ | ⟨th, -, -, hb⟩ |
      ⟨th, mgr2, th1, hat, hall, hb, hat1, hocc⟩
  · rw [hb] at h
    simp only [Except.ok.injEq, Prod.mk.injEq] at h
    obtain ⟨rfl, rfl⟩ := h
    exact ⟨fun _ => ⟨rfl, rfl⟩, fun hc => absurd hc (by decide)⟩
  · rw [hb] at h
    simp only [Except.ok.injEq, Prod.mk.injEq] at h
    obtain ⟨rfl, rfl⟩ := h
    exact ⟨fun _ => ⟨rfl, rfl⟩, fun hc => absurd hc (by decide)⟩
  · rw [hb] at h
    simp only [Except.ok.injEq, Prod.mk.injEq] at h
    obtain ⟨rfl, rfl⟩ := h
    refine ⟨fun hc => absurd hc (by decide), fun _ => ?_⟩
    have hcount := free_count_after th.occupied th1.occupied S hall hocc
    refine ⟨((List.range kCapacity).filter (fun i => !th.occupied i)).map Seat.fromIndex,
      ((List.range kCapacity).filter (fun i => !th1.occupied i)).map Seat.fromIndex,
      ?_, ?_, ?_, ?_, ?_⟩
    · rw [BookingManager.freeSeats_known mgr m t th hat, Theater.freeSeats_eq]
    · rw [BookingManager.freeSeats_known mgr2 m t th1 hat1, Theater.freeSeats_eq]
    · rw [List.length_map, List.length_map]
      exact hcount
    · rw [List.length_map, List.length_map]
      omega
    · intro s hs
      rw [List.length_map, List.length_map]
      rw [hs] at hcount
      simp only [List.map_cons, List.map_nil, List.dedup_cons_of_not_mem (List.not_mem_nil _),
        List.dedup_nil, List.length_singleton] at hcount
      omega

/-- C28 at a concrete input: seat 2 of theater 101 booked on the seeded repository. -/
theorem C28_free_seat_count_witness :
    mgr0.book 1 101 [⟨2, "A3"⟩] = .ok (true, mgr2) ∧
    ((true = false → mgr2 = mgr0 ∧ mgr2.freeSeats 1 101 = mgr0.freeSeats 1 101) ∧
    (true = true → ∃ v v1, mgr0.freeSeats 1 101 = .ok v ∧ mgr2.freeSeats 1 101 = .ok v1 ∧
      v1.length + ([(⟨2, "A3"⟩ : Seat)].map Seat.index).dedup.length = v.length ∧
      v1.length = v.length - ([(⟨2, "A3"⟩ : Seat)].map Seat.index).dedup.length ∧
      (∀ s, [(⟨2, "A3"⟩ : Seat)] = [s] → v1.length = v.length - 1))) :=
  ⟨by decide, C28_free_seat_count mgr0 mgr2 1 101 [⟨2, "A3"⟩] true (by decide)⟩

/-- C29. Exhaustion: on a fresh theater the 20 single-seat requests for
`Seat::fromIndex(0)` .. `Seat::fromIndex(19)`, one after another, all return `true`;
afterwards `freeSeats` is empty, and after any further calls every attempt to book one or
more seats returns `false` and changes nothing. -/
theorem C29_exhaustion (id : Nat) (nm : String) :
    (Theater.new id nm).tryBookAll ((List.range 20).map (fun i => [Seat.fromIndex i]))
      = .ok (List.replicate 20 true, hallFull id nm) ∧
    (hallFull id nm).freeSeats = .ok [] ∧
    (∀ ops : List Op, ∃ th1, (hallFull id nm).run ops = .ok th1 ∧ th1.freeSeats = .ok [] ∧
      ∀ S : List Seat, S ≠ [] → th1.tryBook S = .ok (false, th1)) := by
  refine ⟨?_, rfl, ?_⟩
  · have h0 : hall0.tryBookAll ((List.range 20).map (fun i => [Seat.fromIndex i]))
        = .ok (List.replicate 20 true, hallFull 101 "CinemaA-Hall1") := by decide
    exact Theater.tryBookAll_relabel _ hall0 id nm _ _ h0
  · intro ops
    obtain ⟨th1, hrun, hmono⟩ := Theater.run_mono ops (hallFull id nm)
    have hfull : ∀ i, i < kCapacity → th1.occupied i = true :=
      fun i hi => hmono i (hallFull_occupied id nm i hi)
    refine ⟨th1, hrun, ?_, ?_⟩
    · rw [Theater.freeSeats_eq]
      have hnil : (List.range kCapacity).filter (fun i => !th1.occupied i) = [] := by
        rw [List.filter_eq_nil_iff]
        intro i hi
        rw [hfull i (List.mem_range.1 hi)]
        decide
      rw [hnil]
      rfl
    · intro S hne
      obtain ⟨s, rest, rfl⟩ := List.exists_cons_of_ne_nil hne
      apply Theater.tryBook_reject
      refine ⟨s, List.mem_cons_self _ _, ?_⟩
      by_cases hs : s.index < kCapacity
      · exact Or.inr (hfull s.index hs)
      · exact Or.inl (Nat.le_of_not_lt hs)

/-- C30. Duplicate indices are tolerated by the theater: for an in-range free seat index
`i` and a non-empty seat list whose entries all have index `i`, `tryBook` returns `true`
and ends in the same state as `tryBook` of a single seat with index `i`. -/
theorem C30_duplicate_indices_tolerated (th : Theater) (i : Nat) (S : List Seat)
    (lbl : String) (hi : i < 20) (hfree : th.occupied i = false) (hne : S ≠ [])
    (hall : ∀ s ∈ S, s.index = i) :
    ∃ th1, th.tryBook S = .ok (true, th1) ∧ th.tryBook [⟨i, lbl⟩] = .ok (true, th1) ∧
      th1.occupied i = true ∧ ∀ j, j ≠ i → th1.occupied j = th.occupied j := by
  have hS : ∀ s ∈ S, s.index < kCapacity ∧ th.occupied s.index = false := by
    intro s hs
    rw [hall s hs]
    exact ⟨hi, hfree⟩
  have h1 : ∀ s ∈ [(⟨i, lbl⟩ : Seat)], s.index < kCapacity ∧ th.occupied s.index = false := by
    intro s hs
    rw [List.mem_singleton.1 hs]
    exact ⟨hi, hfree⟩
  obtain ⟨ta, hta, hida, hna, hoa⟩ := Theater.tryBook_accept th S hS
  obtain ⟨tb, htb, hidb, hnb, hob⟩ := Theater.tryBook_accept th [⟨i, lbl⟩] h1
  have hany : ∀ j, S.any (fun s => s.index == j) = decide (i = j) :=
    fun j => any_index_of_all_eq S i j hne hall
  have heq : tb = ta := by
    apply Theater.ext_occupied
    · rw [hidb, hida]
    · rw [hnb, hna]
    · intro j
      rw [hob j, hoa j, hany j,
        any_index_of_all_eq [⟨i, lbl⟩] i j (by simp) (by simp)]
  rw [heq] at htb
  refine ⟨ta, hta, htb, ?_, ?_⟩
  · rw [hoa i, hany i]
    simp
  · intro j hj
    rw [hoa j, hany j, decide_eq_false (fun hij => hj hij.symm), Bool.or_false]

/-- C30 at a concrete input: seat 7 of a fresh hall requested three times in one list,
under different labels. -/
theorem C30_duplicate_indices_tolerated_witness :
    ∃ th1, hall0.tryBook [⟨7, "A8"⟩, ⟨7, "x"⟩, ⟨7, "A8"⟩] = .ok (true, th1) ∧
      hall0.tryBook [⟨7, "A8"⟩] = .ok (true, th1) ∧
      th1.occupied 7 = true ∧ ∀ j, j ≠ 7 → th1.occupied j = hall0.occupied j :=
  C30_duplicate_indices_tolerated hall0 7 [⟨7, "A8"⟩, ⟨7, "x"⟩, ⟨7, "A8"⟩] "A8"
    (by decide) (by decide) (by decide) (by decide)

/-- C31. Label round trip across the CLI boundary: for every seat index `i` in 0..19 the
label-to-index conversion of the `book` command, applied to the label of
`Seat::fromIndex(i)`, yields `i`, and the seat that `BookSeats` builds from that wire index
and label is `Seat::fromIndex(i)` again. -/
theorem C31_cli_label_round_trip (i : Nat) (hi : i < 20) :
    cliIndex (Seat.fromIndex i).label = .ok (Int.ofNat i) ∧
    WireSeat.toSeat ⟨i, (Seat.fromIndex i).label⟩ = Seat.fromIndex i := by
  refine ⟨cliIndex_fromIndex i (Nat.lt_trans hi (by decide)), ?_⟩
  unfold WireSeat.toSeat Seat.fromIndex
  rw [Nat.mod_eq_of_lt (Nat.lt_trans hi (by decide))]

/-- C31 at a concrete input: index 16, label "A17". -/
theorem C31_cli_label_round_trip_witness :
    (Seat.fromIndex 16).label = "A17" ∧ cliIndex "A17" = .ok 16 ∧
    (cliIndex (Seat.fromIndex 16).label = .ok (Int.ofNat 16) ∧
      WireSeat.toSeat ⟨16, (Seat.fromIndex 16).label⟩ = Seat.fromIndex 16) :=
  ⟨by decide, by decide, C31_cli_label_round_trip 16 (by decide)⟩

/-- C32. The call `tryBook` depends only on the set of requested indices: for two seat
lists in which the same indices occur, whatever the labels, the order and the repetitions,
it returns the same boolean and the same theater. -/
theorem C32_tryBook_index_set_only (th : Theater) (S1 S2 : List Seat)
    (h : ∀ i, (∃ s ∈ S1, s.index = i) ↔ (∃ s ∈ S2, s.index = i)) :
    th.tryBook S1 = th.tryBook S2 := by
  have hany : ∀ i, S1.any (fun s => s.index == i) = S2.any (fun s => s.index == i) := by
    intro i
    cases h2 : S2.any (fun s => s.index == i)
    · rw [any_index_eq_false] at h2 ⊢
      intro s hs hsi
      obtain ⟨s2, hs2, hs2i⟩ := (h i).1 ⟨s, hs, hsi⟩
      exact h2 s2 hs2 hs2i
    · rw [any_index_eq_true] at h2 ⊢
      exact (h i).2 h2
  rcases Theater.tryBook_cases th S1 with hall | hsome
  · have hall2 : ∀ s ∈ S2, s.index < kCapacity ∧ th.occupied s.index = false := by
      intro s hs
      obtain ⟨s1, hs1, hs1i⟩ := (h s.index).2 ⟨s, hs, rfl⟩
      rw [← hs1i]
      exact hall s1 hs1
    obtain ⟨ta, hta, hida, hna, hoa⟩ := Theater.tryBook_accept th S1 hall
    obtain ⟨tb, htb, hidb, hnb, hob⟩ := Theater.tryBook_accept th S2 hall2
    have heq : ta = tb := by
      apply Theater.ext_occupied
      · rw [hida, hidb]
      · rw [hna, hnb]
      · intro i
        rw [hoa i, hob i, hany i]
    rw [hta, htb, heq]
  · obtain ⟨s, hs, hbad⟩ := hsome
    obtain ⟨s2, hs2, hs2i⟩ := (h s.index).1 ⟨s, hs, rfl⟩
    rw [Theater.tryBook_reject th S1 ⟨s, hs, hbad⟩,
      Theater.tryBook_reject th S2 ⟨s2, hs2, by rw [hs2i]; exact hbad⟩]

/-- C32 at a concrete input: the seat with index 0 and label "Z99" books the seat shown
as A1, and a reordered list with a repetition books the same seats as its index set. -/
theorem C32_tryBook_index_set_only_witness :
    hall0.tryBook [⟨0, "Z99"⟩] = .ok (true, hallWith (true :: List.replicate 19 false) rfl) ∧
    (hallWith (true :: List.replicate 19 false) rfl).freeSeats = .ok rowA1toA20.tail ∧
    hall0.tryBook [⟨0, "Z99"⟩] = hall0.tryBook [⟨0, "A1"⟩] ∧
    hall3.tryBook [⟨5, "A6"⟩, ⟨0, "A1"⟩, ⟨5, "x"⟩] = hall3.tryBook [⟨0, "y"⟩, ⟨5, "z"⟩] :=
  ⟨by decide, by decide,
   C32_tryBook_index_set_only hall0 [⟨0, "Z99"⟩] [⟨0, "A1"⟩] (by simp),
   C32_tryBook_index_set_only hall3 [⟨5, "A6"⟩, ⟨0, "A1"⟩, ⟨5, "x"⟩] [⟨0, "y"⟩, ⟨5, "z"⟩]
    (by intro i; simp; tauto)⟩

/-- C33. Cross-theater frame: `InMemoryRepository::book(m, t, S)`, successful or not,
returns without raising and leaves every theater other than the one addressed by `(m, t)`,
and so its free-seat list, as it was. -/
theorem C33_cross_theater_frame (r : InMemoryRepository) (m t : Nat) (S : List Seat) :
    ∃ b r1, r.book m t S = .ok (b, r1) ∧
      ∀ m2 t2, (m2 ≠ m ∨ t2 ≠ t) →
        r1.theaterAt m2 t2 = r.theaterAt m2 t2 ∧ r1.freeSeats m2 t2 = r.freeSeats m2 t2 := by
  obtain ⟨b, mgr1, hbook, -⟩ := BookingManager.book_mono ⟨r⟩ m t S
  refine ⟨b, mgr1.repo, (BookingManager.book_eq_ok_iff ⟨r⟩ mgr1 m t S b).1 hbook, ?_⟩
  intro m2 t2 hne
  have hframe := BookingManager.book_frame ⟨r⟩ mgr1 m t S b hbook m2 t2 hne
  exact ⟨hframe, BookingManager.freeSeats_congr ⟨r⟩ mgr1 m2 t2 hframe⟩

/-- C34. Empty seat list below the RPC layer: for a known movie/theater pair and any
occupancy, `Theater::tryBook([])`, `InMemoryRepository::book(m, t, [])` and
`BookingManager::book(m, t, [])` return `true` and change nothing. -/
theorem C34_empty_list_books_nothing (mgr : BookingManager) (m t : Nat) (th : Theater)
    (hat : mgr.repo.theaterAt m t = some th) :
    th.tryBook [] = .ok (true, th) ∧
    mgr.repo.book m t [] = .ok (true, mgr.repo) ∧
    mgr.book m t [] = .ok (true, mgr) ∧
    (∀ (id : Nat) (nm : String), (hallFull id nm).tryBook [] = .ok (true, hallFull id nm)) := by
  have hbook : mgr.book m t [] = .ok (true, mgr) :=
    BookingManager.book_same_theater mgr m t [] th true hat rfl
  exact ⟨rfl, (BookingManager.book_eq_ok_iff mgr mgr m t [] true).1 hbook, hbook,
    fun _ _ => rfl⟩

/-- C34 at a concrete input: the sold-out theater 101 of movie 1. -/
theorem C34_empty_list_books_nothing_witness :
    mgrFull.repo.theaterAt 1 101 = some (hallFull 101 "CinemaA-Hall1") ∧
    ((hallFull 101 "CinemaA-Hall1").tryBook [] = .ok (true, hallFull 101 "CinemaA-Hall1") ∧
    mgrFull.repo.book 1 101 [] = .ok (true, mgrFull.repo) ∧
    mgrFull.book 1 101 [] = .ok (true, mgrFull) ∧
    (∀ (id : Nat) (nm : String), (hallFull id nm).tryBook [] = .ok (true, hallFull id nm))) :=
  ⟨by decide, C34_empty_list_books_nothing mgrFull 1 101 (hallFull 101 "CinemaA-Hall1")
    (by decide)⟩

/-- C35. ListFreeSeats on a sold-out theater: for a known movie/theater pair whose 20
seats are all occupied the handler returns `NOT_FOUND` with the message "movie/theater id
not found"; for known ids it returns `OK` exactly when at least one seat is free, and then
with the free seats. -/
theorem C35_sold_out_is_not_found (mgr : BookingManager) (m t : Nat) (th : Theater)
    (hat : mgr.repo.theaterAt m t = some th) :
    ((∀ i, i < 20 → th.occupied i = true) →
      BookingServiceImpl.ListFreeSeats mgr m t =
        .ok (⟨StatusCode.NOT_FOUND, "movie/theater id not found"⟩, [])) ∧
    ((∃ i, i < 20 ∧ th.occupied i = false) →
      BookingServiceImpl.ListFreeSeats mgr m t =
        .ok (Status.OK, (((List.range 20).filter (fun i => !th.occupied i)).map
          Seat.fromIndex).map (fun s => (⟨s.index, s.label⟩ : WireSeat)))) ∧
    ((∃ out, BookingServiceImpl.ListFreeSeats mgr m t = .ok (Status.OK, out)) ↔
      ∃ i, i < 20 ∧ th.occupied i = false) := by
  have hknown := BookingServiceImpl.ListFreeSeats_known mgr m t th hat
  have hfull : (∀ i, i < 20 → th.occupied i = true) →
      BookingServiceImpl.ListFreeSeats mgr m t =
        .ok (⟨StatusCode.NOT_FOUND, "movie/theater id not found"⟩, []) := by
    intro hall
    have hnil : (List.range kCapacity).filter (fun i => !th.occupied i) = [] := by
      rw [List.filter_eq_nil_iff]
      intro i hi
      rw [hall i (List.mem_range.1 hi)]
      decide
    rw [hknown, hnil]
    rfl
  have hfree : (∃ i, i < 20 ∧ th.occupied i = false) →
      BookingServiceImpl.ListFreeSeats mgr m t =
        .ok (Status.OK, (((List.range 20).filter (fun i => !th.occupied i)).map
          Seat.fromIndex).map (fun s => (⟨s.index, s.label⟩ : WireSeat))) := by
    rintro ⟨i, hi, hocc⟩
    have hmem : i ∈ (List.range kCapacity).filter (fun i => !th.occupied i) := by
      rw [List.mem_filter, List.mem_range, hocc]
      exact ⟨hi, rfl⟩
    have hemp : (((List.range kCapacity).filter (fun i => !th.occupied i)).map
        Seat.fromIndex).isEmpty = false := by
      cases hl : (List.range kCapacity).filter (fun i => !th.occupied i) with
      | nil => rw [hl] at hmem; exact absurd hmem (List.not_mem_nil _)
      | cons a rest => rfl
    rw [hknown, hemp]
    rfl
  refine ⟨hfull, hfree, ⟨?_, fun h => ⟨_, hfree h⟩⟩⟩
  rintro ⟨out, hout⟩
  by_contra hn
  have hall : ∀ i, i < 20 → th.occupied i = true := by
    intro i hi
    cases hb : th.occupied i
    · exact absurd ⟨i, hi, hb⟩ hn
    · rfl
  rw [hfull hall] at hout
  simp only [Except.ok.injEq, Prod.mk.injEq] at hout
  exact absurd hout.1 (by decide)

/-- C35 at a concrete input: theater 101 of movie 1 after its 20 seats were booked one by
one. -/
theorem C35_sold_out_is_not_found_witness :
    mgr0.bookAll ((List.range 20).map (fun i => (1, 101, [Seat.fromIndex i]))) = .ok mgrFull ∧
    mgrFull.repo.theaterAt 1 101 = some (hallFull 101 "CinemaA-Hall1") ∧
    (∀ i, i < 20 → (hallFull 101 "CinemaA-Hall1").occupied i = true) ∧
    BookingServiceImpl.ListFreeSeats mgrFull 1 101 =
      .ok (⟨StatusCode.NOT_FOUND, "movie/theater id not found"⟩, []) :=
  ⟨by decide, by decide, by decide,
   (C35_sold_out_is_not_found mgrFull 1 101 (hallFull 101 "CinemaA-Hall1") (by decide)).1
    (by decide)⟩

/-- C36. Wire index truncation in `BookSeats`: every wire seat is converted to the seat
with index `w mod 256`, so a request is answered as the request with all wire indices
reduced modulo 256, and a non-empty request without repeated labels hands those reduced
indices to `book`; a single-seat request with wire index 256 on the seeded repository
returns `OK` with `success = true` and occupies seat 0. -/
theorem C36_wire_index_mod_256 (mgr : BookingManager) (req : BookingReq) :
    (∀ s : WireSeat, s.toSeat = ⟨s.index % 256, s.label⟩) ∧
    BookingServiceImpl.BookSeats mgr req =
      BookingServiceImpl.BookSeats mgr ⟨req.movie_id, req.theater_id,
        req.seats.map (fun s => ⟨s.index % 256, s.label⟩)⟩ ∧
    (req.seats ≠ [] → (req.seats.map WireSeat.label).Nodup →
      BookingServiceImpl.BookSeats mgr req =
        match mgr.book req.movie_id req.theater_id
            (req.seats.map (fun s => (⟨s.index % 256, s.label⟩ : Seat))) with
        | .error e => .error e
        | .ok (ok, mgr1) =>
          if !ok then
            .ok (⟨StatusCode.ALREADY_EXISTS, "one or more seats already booked"⟩, ⟨ok⟩, mgr1)
          else .ok (Status.OK, ⟨ok⟩, mgr1)) ∧
    BookingServiceImpl.BookSeats mgr0 ⟨1, 101, [⟨256, "A257"⟩]⟩ =
      .ok (Status.OK, ⟨true⟩, mgrSeat0) ∧
    mgrSeat0.occupied 1 101 0 = true ∧
    mgrSeat0.freeSeats 1 101 = .ok rowA1toA20.tail := by
  refine ⟨fun _ => rfl, ?_, ?_, by decide, by decide, by decide⟩
  · unfold BookingServiceImpl.BookSeats BookingServiceImpl.BookSeatsVia
    simp only [BookingServiceImpl.collectSeats_mod]
  · intro hne hnd
    have hmap : req.seats.map WireSeat.toSeat =
        req.seats.map (fun s => (⟨s.index % 256, s.label⟩ : Seat)) := rfl
    unfold BookingServiceImpl.BookSeats
    rw [BookingServiceImpl.BookSeatsVia_forward BookingManager.book mgr req hnd hne, hmap]
    generalize mgr.book req.movie_id req.theater_id
      (req.seats.map (fun s => (⟨s.index % 256, s.label⟩ : Seat))) = res
    cases res with
    | error e => rfl
    | ok p => rfl

/-- C37. The hygiene check of `BookSeats` is by label only: a request with two entries
that have the same in-range index and different labels, on a known theater where that
seat is free, passes the duplicate check and is answered `OK` with `success = true`;
afterwards that seat is occupied and no other seat of the theater changed. -/
theorem C37_same_index_distinct_labels (mgr : BookingManager) (m t i : Nat)
    (l1 l2 : String) (th : Theater) (hi : i < 20) (hl : l1 ≠ l2)
    (hat : mgr.repo.theaterAt m t = some th) (hfree : th.occupied i = false) :
    ∃ mgr1, BookingServiceImpl.BookSeats mgr ⟨m, t, [⟨i, l1⟩, ⟨i, l2⟩]⟩ =
        .ok (Status.OK, ⟨true⟩, mgr1) ∧
      mgr1.occupied m t i = true ∧
      ∀ j, j ≠ i → mgr1.occupied m t j = mgr.occupied m t j := by
  have hmod : i % 256 = i := Nat.mod_eq_of_lt (Nat.lt_trans hi (by decide))
  have hnd : ((BookingReq.mk m t [⟨i, l1⟩, ⟨i, l2⟩]).seats.map WireSeat.label).Nodup := by
    simp [hl]
  have hfwd := BookingServiceImpl.BookSeatsVia_forward BookingManager.book mgr
    ⟨m, t, [⟨i, l1⟩, ⟨i, l2⟩]⟩ hnd (by simp)
  have hseats : (BookingReq.mk m t [⟨i, l1⟩, ⟨i, l2⟩]).seats.map WireSeat.toSeat
      = [⟨i, l1⟩, ⟨i, l2⟩] := by
    simp only [List.map_cons, List.map_nil, WireSeat.toSeat, hmod]
  have hall : ∀ s ∈ [(⟨i, l1⟩ : Seat), ⟨i, l2⟩],
      s.index < kCapacity ∧ th.occupied s.index = false := by
    intro s hs
    simp only [List.mem_cons, List.mem_singleton, List.not_mem_nil, or_false] at hs
    rcases hs with rfl | rfl <;> exact ⟨hi, hfree⟩
  obtain ⟨mgr1, th1, hbook, -, hat1, -, hocc⟩ :=
    BookingManager.book_accept mgr m t [⟨i, l1⟩, ⟨i, l2⟩] th hat hall
  have hany : ∀ j, [(⟨i, l1⟩ : Seat), ⟨i, l2⟩].any (fun s => s.index == j) = decide (i = j) :=
    fun j => any_index_of_all_eq _ i j (by simp) (by
      intro s hs
      simp only [List.mem_cons, List.mem_singleton, List.not_mem_nil, or_false] at hs
      rcases hs with rfl | rfl <;> rfl)
  refine ⟨mgr1, ?_, ?_, ?_⟩
  · rw [hseats] at hfwd
    dsimp only at hfwd
    rw [hbook] at hfwd
    unfold BookingServiceImpl.BookSeats
    rw [hfwd]
    rfl
  · rw [BookingManager.occupied_eq, hat1]
    show th1.occupied i = true
    rw [hocc i, hany i]
    simp
  · intro j hj
    rw [BookingManager.occupied_eq, hat1, BookingManager.occupied_eq, hat]
    show th1.occupied j = th.occupied j
    rw [hocc j, hany j, decide_eq_false (fun hij => hj hij.symm), Bool.or_false]

/-- C37 at a concrete input: index 0 under the labels "A1" and "Z99" on the seeded
repository. -/
theorem C37_same_index_distinct_labels_witness :
    BookingServiceImpl.BookSeats mgr0 ⟨1, 101, [⟨0, "A1"⟩, ⟨0, "Z99"⟩]⟩ =
      .ok (Status.OK, ⟨true⟩, mgrSeat0) ∧
    ∃ mgr1, BookingServiceImpl.BookSeats mgr0 ⟨1, 101, [⟨0, "A1"⟩, ⟨0, "Z99"⟩]⟩ =
        .ok (Status.OK, ⟨true⟩, mgr1) ∧
      mgr1.occupied 1 101 0 = true ∧
      ∀ j, j ≠ 0 → mgr1.occupied 1 101 j = mgr0.occupied 1 101 j :=
  ⟨by decide, C37_same_index_distinct_labels mgr0 1 101 0 "A1" "Z99" hall0
    (by decide) (by decide) (by decide) (by decide)⟩

/-- C38. Labels are unambiguous: for 8-bit indices `i` and `j`, equal labels of
`Seat::fromIndex(i)` and `Seat::fromIndex(j)` imply `i = j`; hence the list returned by
`freeSeats()` never contains two seats with the same label. -/
theorem C38_labels_unambiguous :
    (∀ i j, i < 256 → j < 256 →
      (Seat.fromIndex i).label = (Seat.fromIndex j).label → i = j) ∧
    (∀ th : Theater, ∃ v, th.freeSeats = .ok v ∧ (v.map Seat.label).Nodup) := by
  refine ⟨fromIndex_label_injective, ?_⟩
  intro th
  refine ⟨_, Theater.freeSeats_eq th, ?_⟩
  rw [List.map_map]
  apply List.Nodup.map_on
  · intro i hi j hj hij
    have hi2 : i < 256 :=
      Nat.lt_trans (List.mem_range.1 (List.mem_filter.1 hi).1) (by decide)
    have hj2 : j < 256 :=
      Nat.lt_trans (List.mem_range.1 (List.mem_filter.1 hj).1) (by decide)
    exact fromIndex_label_injective i j hi2 hj2 hij
  · exact (List.nodup_range kCapacity).filter _

end Booking
